import Mathlib

/-!
wether-service: a model of the fetch-and-persist pipeline and of the read path.

The Go packages of the repository are embedded one namespace per package
(`models`, `storage`, `services`, `clients`, `cron`, `handlers`).  Code that
talks to the outside (the PostgreSQL connection, the HTTP client, the logger)
is written in state-passing style over one record, `World`, which holds the
table `reading`, the answers the outside gives, and what the program has
emitted so far.
-/

namespace Wether

/-! ## Go values -/

/-- Float64 is a Go `float64`, identified by its IEEE-754 binary64 bit pattern.
The program never computes with a temperature: it decodes it, carries it and
stores it; the one place that looks into the pattern is the JSON encoder of
the response. -/
structure Float64 where
  bits : Nat
  deriving DecidableEq, Repr

/-- Time is a `time.Time` (and a value of the column `timestamp`), identified
with the instant it denotes, in seconds since 1970-01-01T00:00 UTC.  Nothing in
the modelled code looks below the minute. -/
abbrev Time := Int

/-- The zero `time.Time`, January 1 of year 1, 00:00 UTC. -/
def Time.zero : Time := -62135596800

/-- GoError is a non-nil Go `error` value.
* `errorString s`: a value this program makes on the spot with `errors.New(s)`
  or with `fmt.Errorf` without `%w`; its dynamic type is `*errors.errorString`,
  it has no exported value to compare with, and its text is all it carries.
* `ErrNoRows`: the exported sentinel `pgx.ErrNoRows`.
* `ParseError`: a `*time.ParseError`, with its fields `Layout` and `Value`
  (the fields that only refine the message text are left out).
* `other typ msg`: any other error value made by a library, of dynamic type
  `typ` (which may be `*errors.errorString` too) and text `msg`.
A nil `error` is `none : Option GoError`. -/
inductive GoError where
  | errorString (s : String)
  | ErrNoRows
  | ParseError (Layout Value : String)
  | other (typ msg : String)
  deriving DecidableEq, Repr

/-- A generic error: a value of dynamic type `*errors.errorString`, which a
caller can tell from another one only by reading its text. -/
def GoError.generic : GoError → Bool
  | .errorString _ => true
  | .other typ _ => typ = "*errors.errorString"
  | _ => false

namespace errors

/-- The function `errors.New`. -/
def New (text : String) : GoError := .errorString text

/-- The function `errors.Is`, for a target that is a sentinel (the program only
calls it with `pgx.ErrNoRows`); there is no wrapping in the model. -/
def Is (err target : GoError) : Bool := err == target

end errors

/-! ## Domain models (`internal/domain/models/weather.go`) -/

namespace models

/-- The struct `Weather`. -/
structure Weather where
  Name : String
  Temperature : Float64
  deriving DecidableEq, Repr

/-- The struct `WeatherDTO`. -/
structure WeatherDTO where
  Name : String
  Timestamp : Time
  Temperature : Float64
  deriving DecidableEq, Repr

/-- The zero value `Weather{}`. -/
def Weather.zero : Weather := ⟨"", ⟨0⟩⟩

/-- The zero value `WeatherDTO{}`. -/
def WeatherDTO.zero : WeatherDTO := ⟨"", Time.zero, ⟨0⟩⟩

/-- The method `Weather.ToResponse`; `marshal` is `json.Marshal` on a
`*Weather`, whose encoder is not part of the repository. -/
def Weather.ToResponse (w : Weather) (marshal : Weather → Except GoError String) :
    Option String × Option GoError :=
  match marshal w with
  | .error err => (none, some err)
  | .ok raw => (some raw, none)

/-- The method `WeatherDTO.ToWeather`: assigns `Name` and `Temperature` of the
target and leaves `Timestamp` out. -/
def WeatherDTO.ToWeather (w : WeatherDTO) (weather : Weather) : Weather :=
  let weather := { weather with Name := w.Name }
  let weather := { weather with Temperature := w.Temperature }
  weather

end models

/-! ## The outside world -/

/-- One row of the table `reading (name, temperature, timestamp)`. -/
structure Reading where
  name : String
  temperature : Float64
  timestamp : Time
  deriving DecidableEq, Repr

/-- An argument of a `fmt.Sprintf` call that builds a URL. -/
inductive UrlArg where
  | str (s : String)
  | f64 (x : Float64)
  deriving DecidableEq, Repr

/-- A URL built by `fmt.Sprintf(format, args...)`, kept as format and arguments
(the rendering of `%f` is not modelled). -/
structure Url where
  format : String
  args : List UrlArg
  deriving DecidableEq, Repr

/-- The struct `clients.GeocodingResponse`. -/
structure GeocodingResponse where
  Name : String
  Country : String
  Latitude : Float64
  Longitude : Float64
  deriving DecidableEq, Repr

/-- The field `Current` of `clients.OpenMeteoResponse`. -/
structure OpenMeteoCurrent where
  Time : String
  Temperature2m : Float64
  deriving DecidableEq, Repr

/-- The struct `clients.OpenMeteoResponse`. -/
structure OpenMeteoResponse where
  Current : OpenMeteoCurrent
  deriving DecidableEq, Repr

/-- The body of an HTTP response, described by what `json.NewDecoder(body).Decode`
yields for each of the two shapes the clients decode into: the `Results` slice
of the geocoding answer (an absent or null member gives the nil slice, the empty
list) and the forecast answer. -/
structure Body where
  asGeocoding : Except GoError (List GeocodingResponse)
  asOpenMeteo : Except GoError OpenMeteoResponse

/-- An `*http.Response`: status code and body. -/
structure Response where
  StatusCode : Int
  Body : Body

/-- How the database server treats an `insert` of one row: it stores the row
and reports one affected row, or stores nothing and reports zero affected rows
(a rule or trigger that suppresses the insert), or fails the statement. -/
inductive InsertOutcome where
  | inserted
  | skipped
  | failed (err : GoError)
  deriving DecidableEq, Repr

/-- What the program does to the outside, in order. -/
inductive Event where
  | httpGet (url : Url)
  | sqlExec (query name : String) (temperature : Float64) (timestamp : Time)
  | sqlQueryRow (query city : String)
  deriving DecidableEq, Repr

/-- The state the program runs against.
* `reading`: the rows of the table, oldest insert first;
* `insertOutcome`, `queryFailure`: how the server and the connection treat a
  statement (`queryFailure = none` is a connection that runs the query);
* `httpGet`: what `httpClient.Get` returns for a URL;
* `events`: the requests and statements issued so far;
* `slog`: the errors whose text `slog.Error` has written so far. -/
structure World where
  reading : List Reading
  insertOutcome : InsertOutcome
  queryFailure : Option GoError
  httpGet : Url → Except GoError Response
  events : List Event
  slog : List GoError

/-- Append an event to the record of what the program did. -/
def World.emit (w : World) (e : Event) : World :=
  { w with events := w.events ++ [e] }

/-- The call `slog.Error(err.Error())`. -/
def slogError (err : GoError) (w : World) : World :=
  { w with slog := w.slog ++ [err] }

/-! ## The PostgreSQL connection (`*pgx.Conn`) behind the table -/

namespace pgx

/-- The sentinel `pgx.ErrNoRows`. -/
def ErrNoRows : GoError := .ErrNoRows

/-- The result `pgconn.CommandTag` of a statement. -/
structure CommandTag where
  rowsAffected : Nat
  deriving DecidableEq, Repr

/-- The method `CommandTag.RowsAffected`. -/
def CommandTag.RowsAffected (t : CommandTag) : Nat := t.rowsAffected

/-- The statement of `CreateWeatherCity`. -/
def insertReading : String :=
  "insert into reading (name, temperature, timestamp) values ($1, $2, $3)"

/-- The statement of `ReadWeatherByCity`. -/
def selectLatest : String :=
  "select name, timestamp,temperature from reading where name = $1 order by timestamp desc limit 1"

/-- The order of `order by timestamp desc`: the newer row comes first. -/
def newerFirst (a b : Reading) : Prop := b.timestamp ≤ a.timestamp

instance : DecidableRel newerFirst := fun a b => inferInstanceAs (Decidable (b.timestamp ≤ a.timestamp))

instance : IsTotal Reading newerFirst := ⟨fun a b => le_total b.timestamp a.timestamp⟩

instance : IsTrans Reading newerFirst := ⟨fun _ _ _ hab hbc => le_trans hbc hab⟩

/-- The rows `where name = $1 order by timestamp desc`.  SQL leaves the order
of rows with equal timestamps open; the sort used here keeps them in table
order, and every statement below about the first row assumes the timestamps of
the city distinct. -/
def rowsOf (city : String) (table : List Reading) : List Reading :=
  (table.filter (fun r => r.name = city)).insertionSort newerFirst

/-- The call `db.Exec(ctx, query, name, temperature, timestamp)`.  The server
modelled here knows the one statement `insertReading`. -/
def Conn.Exec (query : String) (name : String) (temperature : Float64) (timestamp : Time)
    (w : World) : (CommandTag × Option GoError) × World :=
  let w := w.emit (.sqlExec query name temperature timestamp)
  if query = insertReading then
    match w.insertOutcome with
    | .failed err => ((⟨0⟩, some err), w)
    | .skipped => ((⟨0⟩, none), w)
    | .inserted => ((⟨1⟩, none), { w with reading := w.reading ++ [⟨name, temperature, timestamp⟩] })
  else ((⟨0⟩, some (.other "*pgconn.PgError" "statement not modelled")), w)

/-- The call `db.QueryRow(ctx, query, city).Scan(...)`: the columns of the
first row of the result, in the order of the select list (name, timestamp,
temperature), `ErrNoRows` when the result is empty, or the failure of the
connection.  The server modelled here knows the one query `selectLatest`. -/
def Conn.QueryRowScan (query : String) (city : String) (w : World) :
    Except GoError (String × Time × Float64) × World :=
  let w := w.emit (.sqlQueryRow query city)
  if query = selectLatest then
    match w.queryFailure with
    | some err => (.error err, w)
    | none =>
      match (rowsOf city w.reading).head? with
      | none => (.error ErrNoRows, w)
      | some r => (.ok (r.name, r.timestamp, r.temperature), w)
  else (.error (.other "*pgconn.PgError" "statement not modelled"), w)

end pgx

/-! ## Storage (`internal/storage/weather.go`) -/

namespace storage

/-- The method `Weather.CreateWeatherCity`. -/
def CreateWeatherCity (name : String) (temperature : Float64) (timestamp : Time)
    (w : World) : Option GoError × World :=
  let query := "insert into reading (name, temperature, timestamp) values ($1, $2, $3)"
  let ((rows, err), w) := pgx.Conn.Exec query name temperature timestamp w
  if err ≠ none then (err, w)
  else if rows.RowsAffected = 0 then (some (errors.New "Weather was not add"), w)
  else (none, w)

/-- The method `Weather.ReadWeatherByCity`. -/
def ReadWeatherByCity (city : String) (w : World) : (models.WeatherDTO × Option GoError) × World :=
  let query := "select name, timestamp,temperature from reading where name = $1 order by timestamp desc limit 1"
  let (scanned, w) := pgx.Conn.QueryRowScan query city w
  match scanned with
  | .error err =>
    if errors.Is err pgx.ErrNoRows then
      ((models.WeatherDTO.zero, some (errors.New "No city with same name")), w)
    else ((models.WeatherDTO.zero, some err), w)
  | .ok (name, timestamp, temperature) =>
    (({ Name := name, Timestamp := timestamp, Temperature := temperature }, none), w)

end storage

/-! ## Services (`internal/services/weather.go`) -/

namespace services

/-- The interface `WeatherSaver`. -/
structure WeatherSaver where
  CreateWeatherCity : String → Float64 → Time → World → Option GoError × World

/-- The interface `WeatherProvider`. -/
structure WeatherProvider where
  ReadWeatherByCity : String → World → (models.WeatherDTO × Option GoError) × World

/-- The struct `WeatherService`. -/
structure WeatherService where
  weatherSaver : WeatherSaver
  weatherProvider : WeatherProvider

/-- The constructor `New`. -/
def New (weatherSaver : WeatherSaver) (weatherProvider : WeatherProvider) : WeatherService :=
  { weatherSaver := weatherSaver, weatherProvider := weatherProvider }

/-- The method `WeatherService.AddWeather`. -/
def WeatherService.AddWeather (w : WeatherService) (name : String) (temperature : Float64)
    (timestamp : Time) (world : World) : Option GoError × World :=
  w.weatherSaver.CreateWeatherCity name temperature timestamp world

/-- The method `WeatherService.GetWeather`. -/
def WeatherService.GetWeather (w : WeatherService) (city : String) (world : World) :
    (models.Weather × Option GoError) × World :=
  let weather := models.Weather.zero
  let ((dto, err), world) := w.weatherProvider.ReadWeatherByCity city world
  if err ≠ none then ((models.Weather.zero, err), world)
  else ((dto.ToWeather weather, none), world)

end services

/-! ## The standard library: `time.Parse`, `fmt.Errorf`, `net/http` -/

/-- The result of running a Go function: it returns, or it panics. -/
inductive Outcome (α : Type) where
  | returned (a : α)
  | panicked (msg : String)
  deriving DecidableEq, Repr

namespace fmt

/-- The call `fmt.Errorf("status code %d", code)`: without `%w` it is
`errors.New` of the formatted text. -/
def ErrorfStatusCode (code : Int) : GoError := errors.New ("status code " ++ toString code)

end fmt

namespace http

/-- The constant `http.StatusOK`. -/
def StatusOK : Int := 200

/-- The constant `http.StatusInternalServerError`. -/
def StatusInternalServerError : Int := 500

/-- The call `httpClient.Get(url)`. -/
def Get (url : Url) (w : World) : Except GoError Response × World :=
  (w.httpGet url, w.emit (.httpGet url))

end http

namespace time

/-- The byte test `isDigit` of package time. -/
def isDigit (c : Char) : Bool := decide ('0' ≤ c) && decide (c ≤ '9')

/-- The value of a digit, `int(c - '0')`. -/
def digit (c : Char) : Nat := c.toNat - '0'.toNat

/-- The helper `getnum`: a leading number of two digits, or of one digit when
`fixed` is false and no second digit follows. -/
def getnum (s : List Char) (fixed : Bool) : Option (Nat × List Char) :=
  match s with
  | [] => none
  | c0 :: rest =>
    if !isDigit c0 then none
    else
      match rest with
      | [] => if fixed then none else some (digit c0, rest)
      | c1 :: rest1 =>
        if !isDigit c1 then (if fixed then none else some (digit c0, rest))
        else some (digit c0 * 10 + digit c1, rest1)

/-- The element `2006` (stdLongYear): exactly four digits. -/
def getyear (s : List Char) : Option (Nat × List Char) :=
  match s with
  | c0 :: c1 :: c2 :: c3 :: rest =>
    if isDigit c0 && isDigit c1 && isDigit c2 && isDigit c3 then
      some (((digit c0 * 10 + digit c1) * 10 + digit c2) * 10 + digit c3, rest)
    else none
  | _ => none

/-- The helper `skip` for a one-byte literal of the layout. -/
def skip (s : List Char) (lit : Char) : Option (List Char) :=
  match s with
  | [] => none
  | c :: rest => if c = lit then some rest else none

/-- The helper `isLeap`. -/
def isLeap (year : Nat) : Bool :=
  year % 4 = 0 && (year % 100 ≠ 0 || year % 400 = 0)

/-- The helper `daysIn`. -/
def daysIn (month year : Nat) : Nat :=
  if month = 2 then (if isLeap year then 29 else 28)
  else if month = 4 ∨ month = 6 ∨ month = 9 ∨ month = 11 then 30
  else 31

/-- Days of a common year before the first of the month. -/
def daysBefore (month : Nat) : Nat :=
  [0, 31, 59, 90, 120, 151, 181, 212, 243, 273, 304, 334].getD (month - 1) 0

/-- The call `time.Date(year, month, day, hour, min, 0, 0, time.UTC)` for fields
in range, as seconds since the Unix epoch. -/
def Date (year month day hour min : Nat) : Time :=
  let y : Int := (year : Int) - 1
  let leapDay : Int := if isLeap year ∧ 2 < month then 1 else 0
  let days : Int := 365 * y + y / 4 - y / 100 + y / 400 + daysBefore month + leapDay + ((day : Int) - 1) - 719162
  days * 86400 + (hour : Int) * 3600 + (min : Int) * 60

/-- The layout of the forecast timestamps. -/
def minuteLayout : String := "2006-01-02T15:04"

/-- The loop of `time.Parse` run on the layout `2006-01-02T15:04`, whose chunks
are `2006`, `-`, `01`, `-`, `02`, `T`, `15`, `:`, `04`: four digits of year; two
digits of month, in 1..12; two digits of day; an hour of one or two digits
(`getnum` is called with `fixed = false` for `15`), below 24; two digits of
minute, below 60; no text left over; then the day checked against the month. -/
def parseMinute (value : List Char) : Option Time :=
  match getyear value with
  | none => none
  | some (year, v) =>
  match skip v '-' with
  | none => none
  | some v =>
  match getnum v true with
  | none => none
  | some (month, v) =>
  if month = 0 ∨ 12 < month then none else
  match skip v '-' with
  | none => none
  | some v =>
  match getnum v true with
  | none => none
  | some (day, v) =>
  match skip v 'T' with
  | none => none
  | some v =>
  match getnum v false with
  | none => none
  | some (hour, v) =>
  if 24 ≤ hour then none else
  match skip v ':' with
  | none => none
  | some v =>
  match getnum v true with
  | none => none
  | some (min, v) =>
  if 60 ≤ min then none else
  if v ≠ [] then none else
  if day < 1 ∨ daysIn month year < day then none else
  some (Date year month day hour min)

/-- The function `time.Parse`, for the one layout the program uses. -/
def Parse (layout value : String) : Except GoError Time :=
  if layout = minuteLayout then
    match parseMinute value.toList with
    | some t => .ok t
    | none => .error (.ParseError layout value)
  else .error (.other "*time.ParseError" "layout not modelled")

end time

/-! ## Clients (`internal/clients`) -/

namespace clients

/-- The constant `geocodingUrl`. -/
def geocodingUrl : String :=
  "https://geocoding-api.open-meteo.com/v1/search?name=%s&count=1&language=ru&format=json"

/-- The constant `openMeteoUrl`. -/
def openMeteoUrl : String :=
  "https://api.open-meteo.com/v1/forecast?latitude=%f&longitude=%f&current=temperature_2m"

/-- The zero value `GeocodingResponse{}`. -/
def GeocodingResponse.zero : GeocodingResponse := ⟨"", "", ⟨0⟩, ⟨0⟩⟩

/-- The zero value `OpenMeteoResponse{}`. -/
def OpenMeteoResponse.zero : OpenMeteoResponse := ⟨⟨"", ⟨0⟩⟩⟩

/-- The panic of indexing element 0 of an empty slice. -/
def indexOutOfRange : String := "runtime error: index out of range [0] with length 0"

/-- The method `Geocoding.GetCoordinate`. -/
def GetCoordinate (city : String) (w : World) :
    Outcome (GeocodingResponse × Option GoError) × World :=
  let (res, w) := http.Get ⟨geocodingUrl, [.str city]⟩ w
  match res with
  | .error err =>
    let w := slogError err w
    (.returned (GeocodingResponse.zero, some err), w)
  | .ok res =>
    if res.StatusCode ≠ http.StatusOK then
      let err := fmt.ErrorfStatusCode res.StatusCode
      let w := slogError err w
      (.returned (GeocodingResponse.zero, some (fmt.ErrorfStatusCode res.StatusCode)), w)
    else
      match res.Body.asGeocoding with
      | .error err =>
        let w := slogError err w
        (.returned (GeocodingResponse.zero, some err), w)
      | .ok Results =>
        match Results[0]? with
        | none => (.panicked indexOutOfRange, w)
        | some first => (.returned (first, none), w)

/-- The method `OpenMeteo.GetTemperature`. -/
def GetTemperature (lat long : Float64) (w : World) :
    (OpenMeteoResponse × Option GoError) × World :=
  let (res, w) := http.Get ⟨openMeteoUrl, [.f64 lat, .f64 long]⟩ w
  match res with
  | .error err =>
    let w := slogError err w
    ((OpenMeteoResponse.zero, some err), w)
  | .ok res =>
    if res.StatusCode ≠ http.StatusOK then
      let err := fmt.ErrorfStatusCode res.StatusCode
      let w := slogError err w
      ((OpenMeteoResponse.zero, some (fmt.ErrorfStatusCode res.StatusCode)), w)
    else
      match res.Body.asOpenMeteo with
      | .error err =>
        let w := slogError err w
        ((OpenMeteoResponse.zero, some err), w)
      | .ok response => ((response, none), w)

end clients

/-! ## The scheduled task (`internal/cron/cron_weather.go`) -/

namespace cron

/-- The constant `city`. -/
def city : String := "moscow"

/-- The interface `WeatherService` of package cron. -/
structure WeatherService where
  AddWeather : String → Float64 → Time → World → Option GoError × World

/-- The struct `CronWeather`; its two clients are the code of package clients
run against the HTTP client of the world. -/
structure CronWeather where
  weatherService : WeatherService

/-- The method `CronWeather.cronTask`. -/
def cronTask (c : CronWeather) (w : World) : Outcome Unit × World :=
  match clients.GetCoordinate city w with
  | (.panicked msg, w) => (.panicked msg, w)
  | (.returned (_, some err), w) => (.returned (), slogError err w)
  | (.returned (geocodingRes, none), w) =>
    match clients.GetTemperature geocodingRes.Latitude geocodingRes.Longitude w with
    | ((_, some err), w) => (.returned (), slogError err w)
    | ((openmeteoRes, none), w) =>
      match time.Parse "2006-01-02T15:04" openmeteoRes.Current.Time with
      | .error err => (.returned (), slogError err w)
      | .ok timestamp =>
        match c.weatherService.AddWeather city openmeteoRes.Current.Temperature2m timestamp w with
        | (some err, w) => (.returned (), slogError err w)
        | (none, w) => (.returned (), w)

end cron

/-! ## The query handler (`internal/handlers/handlers.go`) -/

namespace handlers

/-- The interface `WeatherService` of package handlers. -/
structure WeatherService where
  AddWeather : String → Float64 → Time → World → Option GoError × World
  GetWeather : String → World → (models.Weather × Option GoError) × World

/-- The struct `Handlers` (the router is left out). -/
structure Handlers where
  weatherService : WeatherService

/-- An `http.ResponseWriter`: the status line once it is written, and the body
written so far. -/
structure ResponseWriter where
  status : Option Int
  body : String
  deriving DecidableEq, Repr

/-- A writer nothing has been written to. -/
def ResponseWriter.fresh : ResponseWriter := ⟨none, ""⟩

/-- The method `ResponseWriter.WriteHeader`: the first call fixes the status. -/
def ResponseWriter.WriteHeader (rw : ResponseWriter) (code : Int) : ResponseWriter :=
  match rw.status with
  | some _ => rw
  | none => { rw with status := some code }

/-- The method `ResponseWriter.Write`: a write before any `WriteHeader` sends
status 200 first. -/
def ResponseWriter.Write (rw : ResponseWriter) (data : String) : ResponseWriter :=
  let rw := rw.WriteHeader http.StatusOK
  { rw with body := rw.body ++ data }

/-- The request, reduced to `chi.URLParam(r, "city")`. -/
structure Request where
  city : String
  deriving DecidableEq, Repr

/-- The method `Handlers.getCity`. -/
def getCity (marshal : models.Weather → Except GoError String) (h : Handlers)
    (rw : ResponseWriter) (r : Request) (w : World) : ResponseWriter × World :=
  let city := r.city
  let ((weather, err), w) := h.weatherService.GetWeather city w
  if err ≠ none then
    let rw := rw.WriteHeader http.StatusInternalServerError
    let rw := rw.Write "Error fetching weather"
    (rw, w)
  else
    match weather.ToResponse marshal with
    | (_, some _) =>
      let rw := rw.WriteHeader http.StatusInternalServerError
      (rw, w)
    | (raw, none) =>
      let rw := rw.Write (raw.getD "")
      (rw, w)

end handlers

/-! ## Wiring (`internal/app/app.go`) -/

namespace app

/-- The value `weatherDB := storage.New(postgres)`, as the two interfaces it
implements. -/
def weatherSaver : services.WeatherSaver := ⟨storage.CreateWeatherCity⟩

/-- The value `weatherDB` as a `WeatherProvider`. -/
def weatherProvider : services.WeatherProvider := ⟨storage.ReadWeatherByCity⟩

/-- The value `service := services.New(weatherDB, weatherDB)`. -/
def service : services.WeatherService := services.New weatherSaver weatherProvider

/-- The value `c := cron.New(scheduler, service)`. -/
def c : cron.CronWeather := ⟨⟨service.AddWeather⟩⟩

/-- The value `h := handlers.New(r, service)`. -/
def h : handlers.Handlers := ⟨⟨service.AddWeather, service.GetWeather⟩⟩

end app

/-! ## The standard library: `math`, `strconv`, `encoding/json` -/

namespace math

/-- The exponent field of a float64, bits 52 to 62. -/
def exponent (f : Float64) : Nat := (f.bits / 2 ^ 52) % 2 ^ 11

/-- The fraction field of a float64, bits 0 to 51. -/
def fraction (f : Float64) : Nat := f.bits % 2 ^ 52

/-- The sign bit of a float64. -/
def signbit (f : Float64) : Bool := (f.bits / 2 ^ 63) % 2 = 1

/-- The function `math.IsNaN`. -/
def IsNaN (f : Float64) : Bool := exponent f = 2047 && fraction f ≠ 0

/-- The call `math.IsInf(f, 0)`. -/
def IsInf (f : Float64) : Bool := exponent f = 2047 && fraction f = 0

end math

namespace strconv

/-- The character of a decimal digit. -/
def digitChar (d : Nat) : Char := Char.ofNat (48 + d % 10)

/-- The digits of `n` in front of `acc`, most significant first. -/
def digitsAux : Nat → Nat → List Char → List Char
  | 0, _, acc => acc
  | fuel + 1, n, acc =>
    if n < 10 then digitChar n :: acc
    else digitsAux fuel (n / 10) (digitChar (n % 10) :: acc)

/-- The decimal digits of a natural number, most significant first. -/
def digits (n : Nat) : List Char := digitsAux (n + 1) n []

/-- The type `decimalSlice`: the digits `d` and the position `dp` of the decimal
point, for the value `0.d` times ten to the `dp`. -/
structure decimalSlice where
  d : List Char
  dp : Int
  deriving DecidableEq, Repr

/-- The numerator of `m * 2^e2 / 10^j` over the denominator `scaledDen e2 j`. -/
def scaledNum (m : Nat) (e2 j : Int) : Nat := m * 2 ^ e2.toNat * 10 ^ (-j).toNat

/-- The denominator of `m * 2^e2 / 10^j`. -/
def scaledDen (e2 j : Int) : Nat := 2 ^ (-e2).toNat * 10 ^ j.toNat

/-- The decimal mantissa at exponent `j`, if there is one: among the integers
`x` with `x * 10^j` between the bounds `ml * 2^e2` and `mu * 2^e2` (the bounds
themselves allowed only when `inclusive`), the one nearest to `mc * 2^e2 / 10^j`,
a tie going to the even one. -/
def candidate (ml mc mu : Nat) (e2 : Int) (inclusive : Bool) (j : Int) : Option Nat :=
  let den := scaledDen e2 j
  let nl := scaledNum ml e2 j
  let nc := scaledNum mc e2 j
  let nu := scaledNum mu e2 j
  let lo := if inclusive then (nl + den - 1) / den else nl / den + 1
  let hi := if inclusive then nu / den else (nu + den - 1) / den - 1
  if lo ≤ hi then
    let q := nc / den
    let r := nc % den
    let c := if den < 2 * r ∨ (2 * r = den ∧ q % 2 = 1) then q + 1 else q
    some (max lo (min c hi))
  else none

/-- The largest exponent, from `j` downwards, that has a decimal mantissa. -/
def search (cand : Int → Option Nat) : Nat → Int → Option (Nat × Int)
  | 0, _ => none
  | fuel + 1, j =>
    match cand j with
    | some r => some (r, j)
    | none => search cand fuel (j - 1)

/-- Drop the zeros at the end of a decimal mantissa. -/
def trimZeros : Nat → Nat → Int → Nat × Int
  | 0, r, j => (r, j)
  | fuel + 1, r, j => if r ≠ 0 ∧ r % 10 = 0 then trimZeros fuel (r / 10) (j + 1) else (r, j)

/-- The function `ryuFtoaShortest`, by what it computes, in exact arithmetic:
the shortest decimal that reads back as `mant * 2^exp` (`mant` below `2^53`),
the nearest one when several are as short.  The bounds are those of
`computeBounds`: halfway to the neighbouring floats, the lower one nearer when
`mant` is the lowest mantissa of its exponent.  The search starts at an
exponent `j0` with `10^j0` above the upper bound, since the value is below
`2^(exp + 53)`. -/
def ryuFtoaShortest (mant : Nat) (exp : Int) : decimalSlice :=
  if mant = 0 then ⟨[], 0⟩
  else
    let border : Bool := mant = 2 ^ 52 && exp ≠ -1074
    let ml := if border then 4 * mant - 1 else 2 * mant - 1
    let mc := if border then 4 * mant else 2 * mant
    let mu := if border then 4 * mant + 2 else 2 * mant + 1
    let e2 := if border then exp - 2 else exp - 1
    let inclusive : Bool := mant % 2 = 0
    let j0 : Int := (exp + 54) * 30103 / 100000 + 2
    match search (candidate ml mc mu e2 inclusive) 60 j0 with
    | none => ⟨[], 0⟩
    | some (r, j) =>
      let (r, j) := trimZeros 40 r j
      let ds := digits r
      ⟨ds, (ds.length : Int) + j⟩

/-- The format `%e` with the shortest precision. -/
def fmtE (neg : Bool) (d : decimalSlice) : List Char :=
  let first := match d.d with
    | [] => ['0']
    | c :: rest => if rest = [] then [c] else c :: '.' :: rest
  let exp : Int := if d.d = [] then 0 else d.dp - 1
  let sign := if exp < 0 then '-' else '+'
  let e := exp.natAbs
  let expDigits := if e < 10 then ['0', digitChar e] else digits e
  (if neg then ['-'] else []) ++ first ++ ['e', sign] ++ expDigits

/-- The format `%f` with the shortest precision. -/
def fmtF (neg : Bool) (d : decimalSlice) : List Char :=
  let nd := d.d.length
  let integer :=
    if 0 < d.dp then d.d.take d.dp.toNat ++ List.replicate (d.dp.toNat - nd) '0' else ['0']
  let prec := ((nd : Int) - d.dp).toNat
  let fraction :=
    if 0 < prec then
      '.' :: (List.replicate (-d.dp).toNat '0' ++ d.d.drop d.dp.toNat)
    else []
  (if neg then ['-'] else []) ++ integer ++ fraction

/-- The call `strconv.AppendFloat(b, f, fmt, -1, 64)` for a finite `f` and
`fmt` one of `e` and `f`. -/
def AppendFloat (f : Float64) (fmt : Char) : List Char :=
  let neg : Bool := (f.bits / 2 ^ 63) % 2 = 1
  let bexp : Nat := (f.bits / 2 ^ 52) % 2 ^ 11
  let frac : Nat := f.bits % 2 ^ 52
  let mant : Nat := if bexp = 0 then frac else frac + 2 ^ 52
  let exp : Int := (if bexp = 0 then 1 else (bexp : Int)) - 1023 - 52
  let digs := ryuFtoaShortest mant exp
  if fmt = 'e' then fmtE neg digs else fmtF neg digs

end strconv

namespace json

/-- A lower-case hexadecimal digit. -/
def hex (n : Nat) : Char :=
  ['0', '1', '2', '3', '4', '5', '6', '7', '8', '9', 'a', 'b', 'c', 'd', 'e', 'f'].getD n '0'

/-- The quotation mark. -/
def quote : Char := Char.ofNat 34

/-- The backslash. -/
def backslash : Char := Char.ofNat 92

/-- What `appendString` writes for one character, with HTML escaping on as in
`json.Marshal`: the quotation mark and the backslash behind a backslash; the
short escapes of backspace, form feed, line feed, carriage return and tab
(since Go 1.22 for the first two); the other characters below space and the
three characters less-than, greater-than and ampersand as a `u00` escape; the
separators U+2028 and U+2029 as a `u202` escape; every other character as it
is.  A Lean string is valid Unicode, so the case of broken UTF-8 is not there. -/
def escape (c : Char) : List Char :=
  let n := c.toNat
  if n = 34 ∨ n = 92 then [backslash, c]
  else if n = 8 then [backslash, 'b']
  else if n = 12 then [backslash, 'f']
  else if n = 10 then [backslash, 'n']
  else if n = 13 then [backslash, 'r']
  else if n = 9 then [backslash, 't']
  else if n < 32 ∨ n = 60 ∨ n = 62 ∨ n = 38 then
    [backslash, 'u', '0', '0', hex (n / 16), hex (n % 16)]
  else if n = 8232 ∨ n = 8233 then [backslash, 'u', '2', '0', '2', hex (n % 16)]
  else [c]

/-- The characters of a string, each as `appendString` writes it. -/
def escapeAll : List Char → List Char
  | [] => []
  | c :: cs => escape c ++ escapeAll cs

/-- The function `appendString`: the JSON string literal of a Go string. -/
def appendString (src : String) : List Char :=
  quote :: (escapeAll src.toList ++ [quote])

/-- The float encoder of `encoding/json` on a finite float64: format `f`, or
format `e` when the absolute value is not zero and is below 1e-6 or at least
1e21 (compared on the bit patterns, which order non-negative floats), with an
exponent of one digit written without its leading zero. -/
def floatEncoder (f : Float64) : List Char :=
  let abs : Nat := f.bits % 2 ^ 63
  let fmt := if abs ≠ 0 ∧ (abs < 0x3EB0C6F7A0B5ED8D ∨ 0x444B1AE4D6E2EF50 ≤ abs) then 'e' else 'f'
  let b := strconv.AppendFloat f fmt
  if fmt = 'e' then
    match b.reverse with
    | d :: z :: s :: e :: rest =>
      if e = 'e' ∧ (s = '-' ∨ s = '+') ∧ z = '0' then (d :: s :: e :: rest).reverse else b
    | _ => b
  else b

/-- The text `strconv.FormatFloat(f, 'g', -1, 64)` gives for a value that is
not finite. -/
def unsupported (f : Float64) : String :=
  if math.IsNaN f then "NaN" else if math.signbit f then "-Inf" else "+Inf"

/-- The call `json.Marshal(w)` for `w *models.Weather`: an object with the
members `name` and `temperature`, in the order of the fields of the struct and
under the keys of their `json` tags; the float encoder fails with an
`UnsupportedValueError` on NaN and on the infinities. -/
def Marshal (w : models.Weather) : Except GoError String :=
  if math.IsInf w.Temperature || math.IsNaN w.Temperature then
    .error (.other "*json.UnsupportedValueError"
      ("json: unsupported value: " ++ unsupported w.Temperature))
  else
    .ok ("\x7b\"name\":" ++ String.mk (appendString w.Name) ++ ",\"temperature\":" ++
      String.mk (floatEncoder w.Temperature) ++ "\x7d")

end json

/-! ## The server (`internal/http/server.go`) -/

namespace http

/-- The struct `Server`; the context carries nothing that is modelled, and the
`http.Handler` is the router with the handlers registered on it. -/
structure Server where
  context : Unit
  host : String
  port : Int
  handlers : handlers.Handlers

/-- The constructor `NewServer`: it sets `context`, `port` and `handlers`; the
field `host` is not in the literal and keeps its zero value. -/
def NewServer (context : Unit) (port : Int) (_host : String) (handlers : handlers.Handlers) :
    Server :=
  { context := context, host := "", port := port, handlers := handlers }

/-- The call `fmt.Sprintf("%s:%d", host, port)`. -/
def SprintfAddr (host : String) (port : Int) : String := host ++ ":" ++ toString port

/-- A run of `MustRun`: the address handed to `http.ListenAndServe`, and the
error it panics with if that call returns (`none`: the server keeps serving). -/
structure Running where
  addr : String
  panicked : Option GoError
  deriving DecidableEq, Repr

/-- The method `Server.MustRun`; `ListenAndServe` is what `http.ListenAndServe`
returns for an address. -/
def Server.MustRun (s : Server) (ListenAndServe : String → Option GoError) : Running :=
  let addr := SprintfAddr s.host s.port
  let err := ListenAndServe addr
  match err with
  | some err => { addr := addr, panicked := some err }
  | none => { addr := addr, panicked := none }

end http

/-! ## Vocabulary of the specification -/

namespace Spec

/-- A text has a shape when it has the length of the shape, a digit wherever
the shape has the letter `d`, and the character of the shape everywhere else. -/
def hasShape : List Char → List Char → Bool
  | [], [] => true
  | p :: ps, c :: cs => (if p = 'd' then time.isDigit c else decide (c = p)) && hasShape ps cs
  | _, _ => false

/-- The exact format YYYY-MM-DDTHH:MM of the specification: four-digit year,
two-digit month, day, hour and minute, nothing after the minute. -/
def exactFormat (s : String) : Bool :=
  hasShape ['d', 'd', 'd', 'd', '-', 'd', 'd', '-', 'd', 'd', 'T', 'd', 'd', ':', 'd', 'd'] s.toList

/-- The same format with an hour of one digit. -/
def shortHourFormat (s : String) : Bool :=
  hasShape ['d', 'd', 'd', 'd', '-', 'd', 'd', '-', 'd', 'd', 'T', 'd', ':', 'd', 'd'] s.toList

/-- The request of `GetCoordinate`: a GET built on `geocodingUrl`. -/
def isGetCoordinate : Event → Bool
  | .httpGet url => decide (url.format = clients.geocodingUrl)
  | _ => false

/-- The request of `GetTemperature`: a GET built on `openMeteoUrl`. -/
def isGetTemperature : Event → Bool
  | .httpGet url => decide (url.format = clients.openMeteoUrl)
  | _ => false

/-- The statement of `AddWeather`: the insert into `reading`. -/
def isAddWeather : Event → Bool
  | .sqlExec query _ _ _ => decide (query = pgx.insertReading)
  | _ => false

/-- The value of a member of a JSON object: a string, by the text it denotes,
or a number, by its token. -/
inductive Value where
  | string (text : String)
  | number (token : String)
  deriving DecidableEq, Repr

/-- The value of a hexadecimal digit. -/
def hexValue (c : Char) : Option Nat :=
  let n := c.toNat
  if 48 ≤ n ∧ n ≤ 57 then some (n - 48)
  else if 97 ≤ n ∧ n ≤ 102 then some (n - 87)
  else if 65 ≤ n ∧ n ≤ 70 then some (n - 55)
  else none

/-- Read one character of a JSON string: a character that stands for itself,
or a backslash with what it escapes (a quotation mark, a backslash, a slash,
one of the letters b f n r t, or `u` and four hexadecimal digits). -/
def readChar : List Char → Option (Char × List Char)
  | [] => none
  | c :: cs =>
    if c.toNat = 92 then
      match cs with
      | [] => none
      | e :: rest =>
        if e.toNat = 117 then
          match rest with
          | a :: b :: c2 :: d :: rest4 =>
            match hexValue a, hexValue b, hexValue c2, hexValue d with
            | some x3, some x2, some x1, some x0 =>
              some (Char.ofNat (((x3 * 16 + x2) * 16 + x1) * 16 + x0), rest4)
            | _, _, _, _ => none
          | _ => none
        else if e.toNat = 34 ∨ e.toNat = 92 ∨ e.toNat = 47 then some (e, rest)
        else if e.toNat = 98 then some (Char.ofNat 8, rest)
        else if e.toNat = 102 then some (Char.ofNat 12, rest)
        else if e.toNat = 110 then some (Char.ofNat 10, rest)
        else if e.toNat = 114 then some (Char.ofNat 13, rest)
        else if e.toNat = 116 then some (Char.ofNat 9, rest)
        else none
    else some (c, cs)

/-- Read a JSON string from behind its opening quotation mark up to the closing
one: the text it denotes, and what follows it. -/
def readString : Nat → List Char → Option (List Char × List Char)
  | 0, _ => none
  | fuel + 1, cs =>
    match cs with
    | [] => none
    | c :: rest =>
      if c.toNat = 34 then some ([], rest)
      else
        match readChar (c :: rest) with
        | none => none
        | some (ch, rest1) =>
          match readString fuel rest1 with
          | none => none
          | some (text, rest2) => some (ch :: text, rest2)

/-- The characters of a JSON number: digits, signs, the point, the letter e. -/
def isNumberChar (c : Char) : Bool :=
  let n := c.toNat
  (48 ≤ n && n ≤ 57) || n = 45 || n = 43 || n = 46 || n = 101 || n = 69

/-- Read the value of a member: a string, or a number token that is not
empty. -/
def readValue (cs : List Char) : Option (Value × List Char) :=
  match cs with
  | [] => none
  | c :: rest =>
    if c.toNat = 34 then
      match readString cs.length rest with
      | none => none
      | some (text, rest1) => some (.string (String.mk text), rest1)
    else
      let token := cs.takeWhile isNumberChar
      if token = [] then none else some (.number (String.mk token), cs.dropWhile isNumberChar)

/-- Read the members of a JSON object from behind its opening brace: each a
string key, a colon and a value, with a comma between two members and the
closing brace, which ends the text, after the last. -/
def readMembers : Nat → List Char → Option (List (String × Value))
  | 0, _ => none
  | fuel + 1, cs =>
    match cs with
    | [] => none
    | q :: rest =>
      if q.toNat = 34 then
        match readString cs.length rest with
        | none => none
        | some (key, rest1) =>
          match rest1 with
          | [] => none
          | colon :: rest2 =>
            if colon.toNat = 58 then
              match readValue rest2 with
              | none => none
              | some (value, rest3) =>
                match rest3 with
                | [] => none
                | sep :: rest4 =>
                  if sep.toNat = 44 then
                    match readMembers fuel rest4 with
                    | none => none
                    | some more => some ((String.mk key, value) :: more)
                  else if sep.toNat = 125 ∧ rest4 = [] then some [(String.mk key, value)]
                  else none
            else none
      else none

/-- The members of a text that is a JSON object written without white space,
with the keys and the string values as the texts they denote, in the order in
which they are written; `none` when the text is not such an object. -/
def members (body : String) : Option (List (String × Value)) :=
  match body.toList with
  | [] => none
  | c :: cs => if c.toNat = 123 then readMembers cs.length cs else none

/-- One operation of the core on the store, with how the server or the
connection treats it. -/
inductive Op where
  | AddWeather (server : InsertOutcome) (name : String) (temperature : Float64)
      (timestamp : Time)
  | GetWeather (connection : Option GoError) (city : String)

/-- The world after one operation. -/
def step (op : Op) (w : World) : World :=
  match op with
  | .AddWeather server name temperature timestamp =>
    (app.service.AddWeather name temperature timestamp { w with insertOutcome := server }).2
  | .GetWeather connection city =>
    (app.service.GetWeather city { w with queryFailure := connection }).2

/-- The world after a sequence of operations. -/
def run : List Op → World → World
  | [], w => w
  | op :: ops, w => run ops (step op w)

end Spec

/-! ## Concrete worlds -/

namespace Example

/-- A network that answers nothing. -/
def offline : Url → Except GoError Response :=
  fun _ => .error (.other "*url.Error" "dial tcp: connection refused")

/-- A world with the given table, a connection in order and no network. -/
def store (table : List Reading) : World :=
  { reading := table, insertOutcome := .inserted, queryFailure := none,
    httpGet := offline, events := [], slog := [] }

/-- Two readings of moscow with a reading of another city in between; the
newest of moscow is the last one. -/
def threeRows : List Reading :=
  [⟨"moscow", ⟨1⟩, 10⟩, ⟨"paris", ⟨2⟩, 30⟩, ⟨"moscow", ⟨3⟩, 20⟩]

/-- One reading of moscow, taken at instant 100. -/
def oneRow : List Reading := [⟨"moscow", ⟨1⟩, 100⟩]

/-- A world whose connection is closed: the driver fails every query with a
`*pgconn.connLockError` of text `conn closed`. -/
def brokenStore : World :=
  { store [] with queryFailure := some (.other "*pgconn.connLockError" "conn closed") }

/-- A world whose server suppresses the insert and reports zero affected
rows. -/
def skippingStore : World :=
  { store [] with insertOutcome := .skipped }

/-- The float64 nearest to 55.75. -/
def lat : Float64 := ⟨0x404BE00000000000⟩

/-- The float64 nearest to 37.62. -/
def lon : Float64 := ⟨0x4042CF5C28F5C28F⟩

/-- The float64 nearest to -5.3. -/
def minus5point3 : Float64 := ⟨0xC015333333333333⟩

/-- The geocoding result for moscow. -/
def moscow : GeocodingResponse := ⟨"Moscow", "Russia", lat, lon⟩

/-- A network in which the geocoding service answers 200 with the given
results and the forecast service answers 200 with the given time and -5.3. -/
def network (results : List GeocodingResponse) (time : String) :
    Url → Except GoError Response :=
  fun url =>
    if url.format = clients.geocodingUrl then
      .ok ⟨200, ⟨.ok results, .ok clients.OpenMeteoResponse.zero⟩⟩
    else .ok ⟨200, ⟨.ok [], .ok ⟨⟨time, minus5point3⟩⟩⟩⟩

/-- A tick that starts on an empty table with that network. -/
def tick (results : List GeocodingResponse) (time : String) : World :=
  { store [] with httpGet := network results time }

/-- A quiet NaN. -/
def nan : Float64 := ⟨0x7FF8000000000000⟩

/-- A listener that keeps serving. -/
def serving : String → Option GoError := fun _ => none

end Example

end Wether

namespace Wether

/-! ## Lemmas on the table -/

theorem rowsOf_mem {city : String} {table : List Reading} {r : Reading} :
    r ∈ pgx.rowsOf city table ↔ r ∈ table ∧ r.name = city := by
  unfold pgx.rowsOf
  rw [List.mem_insertionSort]
  simp [List.mem_filter]

theorem rowsOf_head {city : String} {table : List Reading} {r : Reading}
    (h : (pgx.rowsOf city table).head? = some r) :
    r ∈ table ∧ r.name = city ∧
      ∀ r1 ∈ table, r1.name = city → r1.timestamp ≤ r.timestamp := by
  have hs : List.Sorted pgx.newerFirst (pgx.rowsOf city table) :=
    List.sorted_insertionSort pgx.newerFirst _
  cases hl : pgx.rowsOf city table with
  | nil => rw [hl] at h; simp at h
  | cons a l =>
    rw [hl] at h hs
    simp only [List.head?_cons, Option.some.injEq] at h
    subst h
    have hmem : a ∈ pgx.rowsOf city table := by rw [hl]; exact List.mem_cons_self _ _
    refine ⟨(rowsOf_mem.mp hmem).1, (rowsOf_mem.mp hmem).2, ?_⟩
    intro r1 h1 hc
    have h2 : r1 ∈ pgx.rowsOf city table := rowsOf_mem.mpr ⟨h1, hc⟩
    rw [hl] at h2
    rcases List.mem_cons.mp h2 with h3 | h3
    · rw [h3]
    · exact List.rel_of_sorted_cons hs r1 h3

theorem rowsOf_head_none {city : String} {table : List Reading} :
    (pgx.rowsOf city table).head? = none ↔ ∀ r ∈ table, r.name ≠ city := by
  constructor
  · intro h r hr hc
    have h2 : r ∈ pgx.rowsOf city table := rowsOf_mem.mpr ⟨hr, hc⟩
    cases hl : pgx.rowsOf city table with
    | nil => rw [hl] at h2; simp at h2
    | cons a l => rw [hl] at h; simp at h
  · intro h
    cases hl : pgx.rowsOf city table with
    | nil => rfl
    | cons a l =>
      have hmem : a ∈ pgx.rowsOf city table := by rw [hl]; exact List.mem_cons_self _ _
      exact absurd (rowsOf_mem.mp hmem).2 (h a (rowsOf_mem.mp hmem).1)

theorem read_found {city : String} {w : World} {r : Reading}
    (hq : w.queryFailure = none) (h : (pgx.rowsOf city w.reading).head? = some r) :
    storage.ReadWeatherByCity city w =
      ((⟨r.name, r.timestamp, r.temperature⟩, none),
        w.emit (.sqlQueryRow pgx.selectLatest city)) := by
  simp [storage.ReadWeatherByCity, pgx.Conn.QueryRowScan, pgx.selectLatest, World.emit, hq, h]

theorem read_missing {city : String} {w : World}
    (hq : w.queryFailure = none) (h : (pgx.rowsOf city w.reading).head? = none) :
    storage.ReadWeatherByCity city w =
      ((models.WeatherDTO.zero, some (errors.New "No city with same name")),
        w.emit (.sqlQueryRow pgx.selectLatest city)) := by
  simp [storage.ReadWeatherByCity, pgx.Conn.QueryRowScan, pgx.selectLatest, World.emit, hq, h,
    errors.Is, pgx.ErrNoRows]

theorem read_failed {city : String} {w : World} {err : GoError}
    (hq : w.queryFailure = some err) :
    storage.ReadWeatherByCity city w =
      ((models.WeatherDTO.zero,
          some (if err = GoError.ErrNoRows then errors.New "No city with same name" else err)),
        w.emit (.sqlQueryRow pgx.selectLatest city)) := by
  by_cases he : err = GoError.ErrNoRows <;>
  simp [storage.ReadWeatherByCity, pgx.Conn.QueryRowScan, pgx.selectLatest, World.emit, hq,
    errors.Is, pgx.ErrNoRows, he]

theorem create_inserted {w : World} (name : String) (temperature : Float64) (timestamp : Time)
    (h : w.insertOutcome = .inserted) :
    storage.CreateWeatherCity name temperature timestamp w =
      (none, { w.emit (.sqlExec pgx.insertReading name temperature timestamp) with
                reading := w.reading ++ [⟨name, temperature, timestamp⟩] }) := by
  simp [storage.CreateWeatherCity, pgx.Conn.Exec, pgx.insertReading, World.emit, h,
    pgx.CommandTag.RowsAffected]

theorem create_skipped {w : World} (name : String) (temperature : Float64) (timestamp : Time)
    (h : w.insertOutcome = .skipped) :
    storage.CreateWeatherCity name temperature timestamp w =
      (some (errors.New "Weather was not add"),
        w.emit (.sqlExec pgx.insertReading name temperature timestamp)) := by
  simp [storage.CreateWeatherCity, pgx.Conn.Exec, pgx.insertReading, World.emit, h,
    pgx.CommandTag.RowsAffected]

theorem create_failed {w : World} (name : String) (temperature : Float64) (timestamp : Time)
    {err : GoError} (h : w.insertOutcome = .failed err) :
    storage.CreateWeatherCity name temperature timestamp w =
      (some err, w.emit (.sqlExec pgx.insertReading name temperature timestamp)) := by
  simp [storage.CreateWeatherCity, pgx.Conn.Exec, pgx.insertReading, World.emit, h]

theorem create_ok_iff (w : World) (name : String) (temperature : Float64) (timestamp : Time) :
    (storage.CreateWeatherCity name temperature timestamp w).1 = none ↔
      w.insertOutcome = .inserted := by
  cases h : w.insertOutcome with
  | inserted => simp [create_inserted _ _ _ h]
  | skipped => simp [create_skipped _ _ _ h, errors.New]
  | failed err => simp [create_failed _ _ _ h]

/-! ## C1: the read path returns the newest reading of the city -/

/-- C1: on a connection that runs the query, for a city with at least one
reading and pairwise distinct timestamps among its readings,
`ReadWeatherByCity` succeeds with the reading `r` of that city whose timestamp
is the maximum, and it returns that same reading on every table that is a
permutation of this one (every insertion order). -/
theorem read_latest_any_insertion_order (w : World) (city : String)
    (hq : w.queryFailure = none)
    (hex : ∃ r ∈ w.reading, r.name = city)
    (hd : ((w.reading.filter (fun r => r.name = city)).map Reading.timestamp).Nodup) :
    ∃ r, r ∈ w.reading ∧ r.name = city ∧
      (∀ r1 ∈ w.reading, r1.name = city → r1.timestamp ≤ r.timestamp) ∧
      (storage.ReadWeatherByCity city w).1 = (⟨r.name, r.timestamp, r.temperature⟩, none) ∧
      ∀ w1 : World, w1.reading.Perm w.reading → w1.queryFailure = none →
        (storage.ReadWeatherByCity city w1).1 = (⟨r.name, r.timestamp, r.temperature⟩, none) := by
  obtain ⟨r0, hr0, hc0⟩ := hex
  cases hh : (pgx.rowsOf city w.reading).head? with
  | none => exact absurd hc0 (rowsOf_head_none.mp hh r0 hr0)
  | some r =>
    obtain ⟨hr, hc, hmax⟩ := rowsOf_head hh
    refine ⟨r, hr, hc, hmax, by rw [read_found hq hh], ?_⟩
    intro w1 hp hq1
    cases hh1 : (pgx.rowsOf city w1.reading).head? with
    | none =>
      exact absurd hc (rowsOf_head_none.mp hh1 r (hp.symm.subset hr))
    | some r1 =>
      obtain ⟨hr1, hc1, hmax1⟩ := rowsOf_head hh1
      have h1 : r1 ∈ w.reading := hp.subset hr1
      have hts : r1.timestamp = r.timestamp :=
        le_antisymm (hmax r1 h1 hc1) (hmax1 r (hp.symm.subset hr) hc)
      have hinj := List.inj_on_of_nodup_map hd
      have heq : r1 = r :=
        hinj (List.mem_filter.mpr ⟨h1, by simpa using hc1⟩)
          (List.mem_filter.mpr ⟨hr, by simpa using hc⟩) hts
      rw [read_found hq1 hh1, heq]

/-- C1 on the table `threeRows`: the reading of moscow taken at instant 20 is
returned, in whatever order the three rows were inserted. -/
theorem read_latest_any_insertion_order_witness :
    (Example.store Example.threeRows).queryFailure = none ∧
    (∃ r ∈ (Example.store Example.threeRows).reading, r.name = "moscow") ∧
    ∃ r, r ∈ (Example.store Example.threeRows).reading ∧ r.name = "moscow" ∧
      (∀ r1 ∈ (Example.store Example.threeRows).reading,
        r1.name = "moscow" → r1.timestamp ≤ r.timestamp) ∧
      (storage.ReadWeatherByCity "moscow" (Example.store Example.threeRows)).1 =
        (⟨r.name, r.timestamp, r.temperature⟩, none) ∧
      ∀ w1 : World, w1.reading.Perm (Example.store Example.threeRows).reading →
        w1.queryFailure = none →
        (storage.ReadWeatherByCity "moscow" w1).1 = (⟨r.name, r.timestamp, r.temperature⟩, none) :=
  ⟨rfl, ⟨⟨"moscow", ⟨1⟩, 10⟩, by simp [Example.store, Example.threeRows], rfl⟩,
    read_latest_any_insertion_order (Example.store Example.threeRows) "moscow" rfl
      ⟨⟨"moscow", ⟨1⟩, 10⟩, by simp [Example.store, Example.threeRows], rfl⟩
      (by decide)⟩

/-! ## C2: writing then reading -/

theorem getWeather_eq (s : services.WeatherService) (city : String) (w : World) :
    s.GetWeather city w =
      match s.weatherProvider.ReadWeatherByCity city w with
      | ((_, some e), w1) => ((models.Weather.zero, some e), w1)
      | ((d, none), w1) => ((⟨d.Name, d.Temperature⟩, none), w1) := by
  unfold services.WeatherService.GetWeather
  rcases s.weatherProvider.ReadWeatherByCity city w with ⟨⟨d, _ | e⟩, w1⟩ <;>
    simp [models.WeatherDTO.ToWeather]

/-- C2, as stated, fails: with a reading of moscow at instant 100 in the table,
`AddWeather("moscow", X, 50)` succeeds and `GetWeather("moscow")` still answers
the temperature of the reading at instant 100, not `X`. -/
theorem round_trip_fails_behind_newer_reading :
    ¬ ∀ (w : World) (C : String) (X : Float64) (T : Time),
        (app.service.AddWeather C X T w).1 = none →
        (app.service.GetWeather C (app.service.AddWeather C X T w).2).1 = (⟨C, X⟩, none) := by
  intro h
  have h1 := h (Example.store Example.oneRow) "moscow" ⟨2⟩ 50 (by decide)
  revert h1
  decide

/-- C2, amended: after `AddWeather(C, X, T)` succeeds on a table in which every
reading of `C` is older than `T`, and with a connection that runs the query,
`GetWeather(C)` succeeds and returns `Weather{Name: C, Temperature: X}`. -/
theorem round_trip_newest (w : World) (C : String) (X : Float64) (T : Time)
    (hadd : (app.service.AddWeather C X T w).1 = none)
    (hq : w.queryFailure = none)
    (hnew : ∀ r ∈ w.reading, r.name = C → r.timestamp < T) :
    (app.service.GetWeather C (app.service.AddWeather C X T w).2).1 = (⟨C, X⟩, none) := by
  have hins : w.insertOutcome = .inserted := (create_ok_iff w C X T).mp hadd
  have hw : (app.service.AddWeather C X T w).2 =
      { w.emit (.sqlExec pgx.insertReading C X T) with reading := w.reading ++ [⟨C, X, T⟩] } := by
    show (storage.CreateWeatherCity C X T w).2 = _
    rw [create_inserted C X T hins]
  rw [hw, getWeather_eq]
  show (match storage.ReadWeatherByCity C _ with
    | ((_, some e), w1) => ((models.Weather.zero, some e), w1)
    | ((d, none), w1) => ((⟨d.Name, d.Temperature⟩, none), w1)).1 = _
  have hq1 : ({ w.emit (.sqlExec pgx.insertReading C X T) with
      reading := w.reading ++ [⟨C, X, T⟩] } : World).queryFailure = none := hq
  cases hh : (pgx.rowsOf C (w.reading ++ [⟨C, X, T⟩])).head? with
  | none =>
    exact absurd rfl (rowsOf_head_none.mp hh ⟨C, X, T⟩ (by simp))
  | some r =>
    obtain ⟨hr, hc, hmax⟩ := rowsOf_head hh
    have hT : T ≤ r.timestamp := hmax ⟨C, X, T⟩ (by simp) rfl
    have hr1 : r = ⟨C, X, T⟩ := by
      rcases List.mem_append.mp hr with h1 | h1
      · exact absurd (hnew r h1 hc) (not_lt.mpr hT)
      · simpa using h1
    rw [read_found hq1 hh, hr1]

/-- C2 amended, on a table that already holds a reading of moscow taken at
instant 100: writing moscow at the later instant 150 and reading it back gives
the temperature written, not the one of the older reading. -/
theorem round_trip_newest_witness :
    (app.service.AddWeather "moscow" ⟨2⟩ 150 (Example.store Example.oneRow)).1 = none ∧
    (∃ r ∈ (Example.store Example.oneRow).reading, r.name = "moscow" ∧ r.timestamp < 150) ∧
    (app.service.GetWeather "moscow"
      (app.service.AddWeather "moscow" ⟨2⟩ 150 (Example.store Example.oneRow)).2).1 =
        (⟨"moscow", ⟨2⟩⟩, none) :=
  ⟨by decide, ⟨⟨"moscow", ⟨1⟩, 100⟩, by decide, rfl, by decide⟩,
    round_trip_newest (Example.store Example.oneRow) "moscow" ⟨2⟩ 150 (by decide) rfl
      (by decide)⟩

/-! ## C3: reading a city that has no reading -/

/-- C3, as stated, fails: the claim asks for an error of a kind of its own, not
a generic error; on the empty table, with a connection that runs the query,
`ReadWeatherByCity` returns `errors.New("No city with same name")`, a generic
error. -/
theorem not_found_is_generic_error :
    ¬ ∀ (w : World) (city : String), w.queryFailure = none →
        (∀ r ∈ w.reading, r.name ≠ city) →
        ∃ e : GoError, (storage.ReadWeatherByCity city w).1 =
          (models.WeatherDTO.zero, some e) ∧ e.generic = false := by
  intro h
  obtain ⟨e, h1, h2⟩ := h (Example.store []) "unknown-city" rfl (by decide)
  have h3 : (storage.ReadWeatherByCity "unknown-city" (Example.store [])).1 =
      (models.WeatherDTO.zero, some (errors.New "No city with same name")) := by decide
  rw [h3] at h1
  simp only [Prod.mk.injEq, Option.some.injEq, true_and] at h1
  rw [← h1] at h2
  revert h2
  decide

/-- C3, amended: on a connection that runs the query and a table with no
reading of the city, `ReadWeatherByCity` returns (it cannot panic) the zero DTO
and the error `errors.New("No city with same name")`, which is a generic error
with a fixed text; a failure `err` of the connection other than `ErrNoRows` is
returned as it is. -/
theorem not_found_error (w : World) (city : String)
    (hq : w.queryFailure = none)
    (hno : ∀ r ∈ w.reading, r.name ≠ city) :
    (storage.ReadWeatherByCity city w).1 =
      (models.WeatherDTO.zero, some (errors.New "No city with same name")) ∧
    (errors.New "No city with same name").generic = true ∧
    ∀ (w1 : World) (err : GoError), w1.queryFailure = some err → err ≠ pgx.ErrNoRows →
      (storage.ReadWeatherByCity city w1).1 = (models.WeatherDTO.zero, some err) := by
  refine ⟨by rw [read_missing hq (rowsOf_head_none.mpr hno)], rfl, ?_⟩
  intro w1 err h1 h2
  have h3 : err ≠ GoError.ErrNoRows := h2
  rw [read_failed h1, if_neg h3]

/-- C3 amended, on a table that only holds readings of moscow. -/
theorem not_found_error_witness :
    (Example.store Example.oneRow).queryFailure = none ∧
    ((storage.ReadWeatherByCity "unknown-city" (Example.store Example.oneRow)).1 =
      (models.WeatherDTO.zero, some (errors.New "No city with same name")) ∧
    (errors.New "No city with same name").generic = true ∧
    ∀ (w1 : World) (err : GoError), w1.queryFailure = some err → err ≠ pgx.ErrNoRows →
      (storage.ReadWeatherByCity "unknown-city" w1).1 = (models.WeatherDTO.zero, some err)) :=
  ⟨rfl, not_found_error (Example.store Example.oneRow) "unknown-city" rfl (by decide)⟩

/-! ## C8: the service read path -/

/-- C8: for every provider, city and world, `GetWeather(city)` is one call of
the provider's `ReadWeatherByCity(city)`: the world after it is the world after
that call; when the call returns an error `e` the result is the zero `Weather`
with exactly `e`; when it returns the DTO `d` with a nil error the result is
`Weather{Name: d.Name, Temperature: d.Temperature}` with a nil error, the same
for every value of `d.Timestamp`. -/
theorem getWeather_projects_provider (s : services.WeatherService) (city : String) (w : World) :
    (s.GetWeather city w).2 = (s.weatherProvider.ReadWeatherByCity city w).2 ∧
    (s.GetWeather city w).1 =
      (match (s.weatherProvider.ReadWeatherByCity city w).1 with
        | (_, some e) => (models.Weather.zero, some e)
        | (d, none) => (⟨d.Name, d.Temperature⟩, none)) ∧
    ∀ (d : models.WeatherDTO) (ts : Time),
      ({ d with Timestamp := ts } : models.WeatherDTO).ToWeather models.Weather.zero =
        d.ToWeather models.Weather.zero := by
  rw [getWeather_eq]
  rcases s.weatherProvider.ReadWeatherByCity city w with ⟨⟨d, _ | e⟩, w1⟩ <;>
    simp [models.WeatherDTO.ToWeather]

/-! ## C9: the insert and its confirmation -/

/-- C9, as stated, fails: the claim asks, for zero affected rows, for an error
of a kind of its own, distinct from a persistence error; on a server that
suppresses the insert `CreateWeatherCity` returns `errors.New("Weather was not
add")`, a generic error. -/
theorem write_not_confirmed_is_generic_error :
    ¬ ∀ (w : World) (name : String) (temperature : Float64) (timestamp : Time),
        (pgx.Conn.Exec pgx.insertReading name temperature timestamp w).1.2 = none →
        (pgx.Conn.Exec pgx.insertReading name temperature timestamp w).1.1.RowsAffected = 0 →
        ∃ e : GoError, (storage.CreateWeatherCity name temperature timestamp w).1 = some e ∧
          e.generic = false := by
  intro h
  obtain ⟨e, h1, h2⟩ := h Example.skippingStore "moscow" ⟨2⟩ 50 (by decide) (by decide)
  have h3 : (storage.CreateWeatherCity "moscow" ⟨2⟩ 50 Example.skippingStore).1 =
      some (errors.New "Weather was not add") := by decide
  rw [h3] at h1
  simp only [Option.some.injEq] at h1
  rw [← h1] at h2
  revert h2
  decide

/-- C9, amended: with `(tag, err)` what `db.Exec` returns for the insert,
`CreateWeatherCity` returns nil exactly when `err` is nil and the tag reports at
least one affected row; when `err` is nil and the tag reports zero rows it
returns `errors.New("Weather was not add")`, a generic error with a fixed text;
when `err` is not nil it returns `err`; and the call does to the world what the
one `Exec` does. -/
theorem create_confirms_write (w : World) (name : String) (temperature : Float64)
    (timestamp : Time) :
    ((storage.CreateWeatherCity name temperature timestamp w).1 = none ↔
      ((pgx.Conn.Exec pgx.insertReading name temperature timestamp w).1.2 = none ∧
        1 ≤ (pgx.Conn.Exec pgx.insertReading name temperature timestamp w).1.1.RowsAffected)) ∧
    (((pgx.Conn.Exec pgx.insertReading name temperature timestamp w).1.2 = none ∧
        (pgx.Conn.Exec pgx.insertReading name temperature timestamp w).1.1.RowsAffected = 0) →
      (storage.CreateWeatherCity name temperature timestamp w).1 =
        some (errors.New "Weather was not add")) ∧
    (errors.New "Weather was not add").generic = true ∧
    (∀ e, (pgx.Conn.Exec pgx.insertReading name temperature timestamp w).1.2 = some e →
      (storage.CreateWeatherCity name temperature timestamp w).1 = some e) ∧
    (storage.CreateWeatherCity name temperature timestamp w).2 =
      (pgx.Conn.Exec pgx.insertReading name temperature timestamp w).2 := by
  cases h : w.insertOutcome with
  | inserted =>
    simp [create_inserted _ _ _ h, pgx.Conn.Exec, h, World.emit, pgx.CommandTag.RowsAffected,
      errors.New, GoError.generic]
  | skipped =>
    simp [create_skipped _ _ _ h, pgx.Conn.Exec, h, World.emit, pgx.CommandTag.RowsAffected,
      errors.New, GoError.generic]
  | failed err =>
    simp [create_failed _ _ _ h, pgx.Conn.Exec, h, World.emit, pgx.CommandTag.RowsAffected,
      errors.New, GoError.generic]

/-! ## C10: the handler on a failed lookup -/

/-- C10: for every request and any two runs of `getCity` in which `GetWeather`
returns an error (of whatever kind and text, from whatever service and world),
the two responses are identical: status 500 and the body
`Error fetching weather`. -/
theorem getCity_error_response_is_fixed
    (marshal : models.Weather → Except GoError String)
    (h1 h2 : handlers.Handlers) (r : handlers.Request) (w1 w2 : World)
    (weather1 weather2 : models.Weather) (e1 e2 : GoError)
    (he1 : (h1.weatherService.GetWeather r.city w1).1 = (weather1, some e1))
    (he2 : (h2.weatherService.GetWeather r.city w2).1 = (weather2, some e2)) :
    (handlers.getCity marshal h1 handlers.ResponseWriter.fresh r w1).1 =
      (handlers.getCity marshal h2 handlers.ResponseWriter.fresh r w2).1 ∧
    (handlers.getCity marshal h1 handlers.ResponseWriter.fresh r w1).1 =
      ⟨some 500, "Error fetching weather"⟩ := by
  have key : ∀ (h : handlers.Handlers) (w : World) (weather : models.Weather) (e : GoError),
      (h.weatherService.GetWeather r.city w).1 = (weather, some e) →
      (handlers.getCity marshal h handlers.ResponseWriter.fresh r w).1 =
        ⟨some 500, "Error fetching weather"⟩ := by
    intro h w weather e he
    have herr : (h.weatherService.GetWeather r.city w).1.2 = some e := by rw [he]
    simp [handlers.getCity, herr, handlers.ResponseWriter.WriteHeader,
      handlers.ResponseWriter.Write, handlers.ResponseWriter.fresh,
      http.StatusInternalServerError]
  exact ⟨(key h1 w1 weather1 e1 he1).trans (key h2 w2 weather2 e2 he2).symm,
    key h1 w1 weather1 e1 he1⟩

/-- C10 on the deployed wiring: a city that is not in the table and a
connection that fails give the same response. -/
theorem getCity_error_response_is_fixed_witness :
    (handlers.getCity (fun _ => Except.ok "") app.h handlers.ResponseWriter.fresh
        ⟨"unknown-city"⟩ (Example.store [])).1 =
      (handlers.getCity (fun _ => Except.ok "") app.h handlers.ResponseWriter.fresh
        ⟨"unknown-city"⟩ Example.brokenStore).1 ∧
    (handlers.getCity (fun _ => Except.ok "") app.h handlers.ResponseWriter.fresh
        ⟨"unknown-city"⟩ (Example.store [])).1 = ⟨some 500, "Error fetching weather"⟩ :=
  getCity_error_response_is_fixed (fun _ => Except.ok "") app.h app.h ⟨"unknown-city"⟩
    (Example.store []) Example.brokenStore models.Weather.zero models.Weather.zero
    (errors.New "No city with same name") (.other "*pgconn.connLockError" "conn closed")
    (by decide) (by decide)

/-! ## Lemmas on `time.Parse` -/

theorem getyear_some {s v : List Char} {y : Nat} (h : time.getyear s = some (y, v)) :
    ∃ c0 c1 c2 c3, s = c0 :: c1 :: c2 :: c3 :: v ∧ time.isDigit c0 = true ∧
      time.isDigit c1 = true ∧ time.isDigit c2 = true ∧ time.isDigit c3 = true := by
  unfold time.getyear at h
  split at h
  · rename_i c0 c1 c2 c3 rest
    split at h
    · rename_i hd
      simp only [Option.some.injEq, Prod.mk.injEq] at h
      simp only [Bool.and_eq_true] at hd
      exact ⟨c0, c1, c2, c3, by rw [h.2], hd.1.1.1, hd.1.1.2, hd.1.2, hd.2⟩
    · simp at h
  · simp at h

theorem skip_some {s v : List Char} {lit : Char} (h : time.skip s lit = some v) :
    s = lit :: v := by
  unfold time.skip at h
  split at h
  · simp at h
  · rename_i c rest
    split at h
    · rename_i hc
      simp only [Option.some.injEq] at h
      rw [hc, h]
    · simp at h

theorem getnum_fixed_some {s v : List Char} {n : Nat} (h : time.getnum s true = some (n, v)) :
    ∃ c0 c1, s = c0 :: c1 :: v ∧ time.isDigit c0 = true ∧ time.isDigit c1 = true := by
  unfold time.getnum at h
  split at h
  · simp at h
  · rename_i c0 rest
    by_cases h0 : time.isDigit c0 = true
    · simp only [h0, Bool.not_true, Bool.false_eq_true, if_false] at h
      split at h
      · simp at h
      · rename_i c1 rest1
        by_cases h1 : time.isDigit c1 = true
        · simp only [h1, Bool.not_true, Bool.false_eq_true, if_false, Option.some.injEq,
            Prod.mk.injEq] at h
          exact ⟨c0, c1, by rw [h.2], h0, h1⟩
        · simp [h1] at h
    · simp [h0] at h

theorem getnum_free_some {s v : List Char} {n : Nat} (h : time.getnum s false = some (n, v)) :
    (∃ c0 c1, s = c0 :: c1 :: v ∧ time.isDigit c0 = true ∧ time.isDigit c1 = true) ∨
    (∃ c0, s = c0 :: v ∧ time.isDigit c0 = true) := by
  unfold time.getnum at h
  split at h
  · simp at h
  · rename_i c0 rest
    by_cases h0 : time.isDigit c0 = true
    · simp only [h0, Bool.not_true, Bool.false_eq_true, if_false] at h
      split at h
      · simp only [Option.some.injEq, Prod.mk.injEq] at h
        exact Or.inr ⟨c0, by rw [h.2], h0⟩
      · rename_i c1 rest1
        by_cases h1 : time.isDigit c1 = true
        · simp only [h1, Bool.not_true, Bool.false_eq_true, if_false, Option.some.injEq,
            Prod.mk.injEq] at h
          exact Or.inl ⟨c0, c1, by rw [h.2], h0, h1⟩
        · simp only [h1, Bool.not_false, if_true, Bool.false_eq_true, if_false,
            Option.some.injEq, Prod.mk.injEq] at h
          exact Or.inr ⟨c0, by rw [h.2], h0⟩
    · simp [h0] at h

theorem parseMinute_shape {cs : List Char} {t : Time} (h : time.parseMinute cs = some t) :
    Spec.hasShape ['d', 'd', 'd', 'd', '-', 'd', 'd', '-', 'd', 'd', 'T', 'd', 'd', ':', 'd', 'd'] cs
        = true ∨
    Spec.hasShape ['d', 'd', 'd', 'd', '-', 'd', 'd', '-', 'd', 'd', 'T', 'd', ':', 'd', 'd'] cs
        = true := by
  unfold time.parseMinute at h
  split at h
  · simp at h
  rename_i year v1 hy
  split at h
  · simp at h
  rename_i v2 hs1
  split at h
  · simp at h
  rename_i month v3 hm
  split at h
  · simp at h
  split at h
  · simp at h
  rename_i v4 hs2
  split at h
  · simp at h
  rename_i day v5 hd
  split at h
  · simp at h
  rename_i v6 hs3
  split at h
  · simp at h
  rename_i hour v7 hh
  split at h
  · simp at h
  split at h
  · simp at h
  rename_i v8 hs4
  split at h
  · simp at h
  rename_i min v9 hn
  split at h
  · simp at h
  split at h
  · simp at h
  rename_i hv9
  have hv9 : v9 = [] := by simpa using hv9
  obtain ⟨y0, y1, y2, y3, rfl, hy0, hy1, hy2, hy3⟩ := getyear_some hy
  have e1 := skip_some hs1
  obtain ⟨m0, m1, e2, hm0, hm1⟩ := getnum_fixed_some hm
  have e3 := skip_some hs2
  obtain ⟨d0, d1, e4, hd0, hd1⟩ := getnum_fixed_some hd
  have e5 := skip_some hs3
  have e7 := skip_some hs4
  obtain ⟨n0, n1, e8, hn0, hn1⟩ := getnum_fixed_some hn
  subst hv9
  rcases getnum_free_some hh with ⟨h0, h1, e6, hh0, hh1⟩ | ⟨h0, e6, hh0⟩
  · left
    subst e8; subst e7; subst e6; subst e5; subst e4; subst e3; subst e2; subst e1
    simp [Spec.hasShape, hy0, hy1, hy2, hy3, hm0, hm1, hd0, hd1, hh0, hh1, hn0, hn1]
  · right
    subst e8; subst e7; subst e6; subst e5; subst e4; subst e3; subst e2; subst e1
    simp [Spec.hasShape, hy0, hy1, hy2, hy3, hm0, hm1, hd0, hd1, hh0, hn0, hn1]

theorem parse_accepts {s : String} {t : Time} (h : time.parseMinute s.toList = some t) :
    time.Parse "2006-01-02T15:04" s = .ok t := by
  unfold time.Parse
  rw [if_pos (show "2006-01-02T15:04" = time.minuteLayout from rfl), h]

theorem parse_rejects_other_shapes {s : String}
    (h1 : Spec.exactFormat s = false) (h2 : Spec.shortHourFormat s = false) :
    time.Parse "2006-01-02T15:04" s = .error (.ParseError "2006-01-02T15:04" s) := by
  cases hp : time.parseMinute s.toList with
  | none =>
    unfold time.Parse
    rw [if_pos (show "2006-01-02T15:04" = time.minuteLayout from rfl), hp]
  | some t =>
    rcases parseMinute_shape hp with h | h
    · rw [Spec.exactFormat, h] at h1; exact absurd h1 (by simp)
    · rw [Spec.shortHourFormat, h] at h2; exact absurd h2 (by simp)

/-! ## Lemmas on the clients and on the task -/

theorem getCoordinate_frame (city : String) (w : World) :
    (clients.GetCoordinate city w).2.reading = w.reading ∧
    (clients.GetCoordinate city w).2.insertOutcome = w.insertOutcome ∧
    (clients.GetCoordinate city w).2.events =
      w.events ++ [.httpGet ⟨clients.geocodingUrl, [.str city]⟩] := by
  simp only [clients.GetCoordinate, http.Get]
  rcases w.httpGet ⟨clients.geocodingUrl, [.str city]⟩ with err | res
  · simp [slogError, World.emit]
  · by_cases hs : res.StatusCode = http.StatusOK
    · rcases hb : res.Body.asGeocoding with err | results
      · simp [hs, hb, slogError, World.emit]
      · cases results <;> simp [hs, hb, slogError, World.emit]
    · simp [hs, slogError, World.emit]

theorem getTemperature_frame (lat long : Float64) (w : World) :
    (clients.GetTemperature lat long w).2.reading = w.reading ∧
    (clients.GetTemperature lat long w).2.insertOutcome = w.insertOutcome ∧
    (clients.GetTemperature lat long w).2.events =
      w.events ++ [.httpGet ⟨clients.openMeteoUrl, [.f64 lat, .f64 long]⟩] := by
  simp only [clients.GetTemperature, http.Get]
  rcases w.httpGet ⟨clients.openMeteoUrl, [.f64 lat, .f64 long]⟩ with err | res
  · simp [slogError, World.emit]
  · by_cases hs : res.StatusCode = http.StatusOK
    · rcases hb : res.Body.asOpenMeteo with err | response
      · simp [hs, hb, slogError, World.emit]
      · simp [hs, hb, slogError, World.emit]
    · simp [hs, slogError, World.emit]

theorem addWeather_frame (name : String) (temperature : Float64) (timestamp : Time) (w : World) :
    (app.service.AddWeather name temperature timestamp w).2.events =
      w.events ++ [.sqlExec pgx.insertReading name temperature timestamp] ∧
    (app.service.AddWeather name temperature timestamp w).2.reading =
      w.reading ++ (if w.insertOutcome = .inserted then [⟨name, temperature, timestamp⟩] else []) := by
  show (storage.CreateWeatherCity name temperature timestamp w).2.events = _ ∧
    (storage.CreateWeatherCity name temperature timestamp w).2.reading = _
  cases h : w.insertOutcome with
  | inserted => simp [create_inserted _ _ _ h, World.emit]
  | skipped => simp [create_skipped _ _ _ h, World.emit]
  | failed err => simp [create_failed _ _ _ h, World.emit]

/-- The five ways a tick can run. -/
theorem cronTask_run (c : cron.CronWeather) (w : World) :
    (∃ m, (clients.GetCoordinate cron.city w).1 = .panicked m ∧
      cron.cronTask c w = (.panicked m, (clients.GetCoordinate cron.city w).2)) ∨
    (∃ g e, (clients.GetCoordinate cron.city w).1 = .returned (g, some e) ∧
      cron.cronTask c w = (.returned (), slogError e (clients.GetCoordinate cron.city w).2)) ∨
    (∃ g r e, (clients.GetCoordinate cron.city w).1 = .returned (g, none) ∧
      (clients.GetTemperature g.Latitude g.Longitude (clients.GetCoordinate cron.city w).2).1
        = (r, some e) ∧
      cron.cronTask c w = (.returned (), slogError e
        (clients.GetTemperature g.Latitude g.Longitude (clients.GetCoordinate cron.city w).2).2)) ∨
    (∃ g r e, (clients.GetCoordinate cron.city w).1 = .returned (g, none) ∧
      (clients.GetTemperature g.Latitude g.Longitude (clients.GetCoordinate cron.city w).2).1
        = (r, none) ∧
      time.Parse "2006-01-02T15:04" r.Current.Time = .error e ∧
      cron.cronTask c w = (.returned (), slogError e
        (clients.GetTemperature g.Latitude g.Longitude (clients.GetCoordinate cron.city w).2).2)) ∨
    (∃ g r ts, (clients.GetCoordinate cron.city w).1 = .returned (g, none) ∧
      (clients.GetTemperature g.Latitude g.Longitude (clients.GetCoordinate cron.city w).2).1
        = (r, none) ∧
      time.Parse "2006-01-02T15:04" r.Current.Time = .ok ts ∧
      cron.cronTask c w = (.returned (),
        match c.weatherService.AddWeather cron.city r.Current.Temperature2m ts
          (clients.GetTemperature g.Latitude g.Longitude
            (clients.GetCoordinate cron.city w).2).2 with
        | (some e, w3) => slogError e w3
        | (none, w3) => w3)) := by
  unfold cron.cronTask
  rcases hgc : clients.GetCoordinate cron.city w with ⟨⟨g, _ | e⟩ | m, w1⟩
  · rcases hgt : clients.GetTemperature g.Latitude g.Longitude w1 with ⟨⟨r, _ | e⟩, w2⟩
    · cases hp : time.Parse "2006-01-02T15:04" r.Current.Time with
      | error e =>
        right; right; right; left
        exact ⟨g, r, e, rfl, by simp [hgt], hp, by simp [hgt, hp]⟩
      | ok ts =>
        right; right; right; right
        refine ⟨g, r, ts, rfl, by simp [hgt], hp, ?_⟩
        simp only [hgt, hp]
        rcases c.weatherService.AddWeather cron.city r.Current.Temperature2m ts w2
          with ⟨_ | e, w3⟩ <;> rfl
    · right; right; left
      exact ⟨g, r, e, rfl, by simp [hgt], by simp [hgt]⟩
  · right; left
    exact ⟨g, e, rfl, rfl⟩
  · left
    exact ⟨m, rfl, rfl⟩

/-- Every answer with status 200 and an empty result list makes
`GetCoordinate` panic, and the task with it, whatever the weather service. -/
theorem getCoordinate_empty_results (city : String) (w : World) (res : Response)
    (hget : w.httpGet ⟨clients.geocodingUrl, [.str city]⟩ = .ok res)
    (hs : res.StatusCode = 200) (hb : res.Body.asGeocoding = .ok []) :
    (clients.GetCoordinate city w).1 = .panicked clients.indexOutOfRange ∧
    (city = cron.city → ∀ c : cron.CronWeather,
      (cron.cronTask c w).1 = .panicked clients.indexOutOfRange) := by
  have h1 : (clients.GetCoordinate city w).1 = .panicked clients.indexOutOfRange := by
    simp [clients.GetCoordinate, http.Get, hget, hs, hb, http.StatusOK]
  refine ⟨h1, ?_⟩
  intro hc c
  subst hc
  rcases cronTask_run c w with ⟨m, h, h5⟩ | ⟨g1, e, h, -⟩ | ⟨g1, r1, e, h, -⟩ |
      ⟨g1, r1, e, h, -⟩ | ⟨g1, r1, ts, h, -⟩
  · rw [h1] at h
    simp only [Outcome.panicked.injEq] at h
    rw [h5, h]
  all_goals (rw [h1] at h; simp at h)

/-! ## C4: a geocoding answer without results -/

/-- C4: the geocoding service answers 200 with an empty result list.  The
claim asks for an error and a tick that ends; the code indexes element 0 of the
empty list: `GetCoordinate` panics, `cronTask` panics with it, after the one
geocoding request and with the table untouched. -/
theorem getCoordinate_panics_on_empty_results :
    (clients.GetCoordinate "moscow" (Example.tick [] "2024-01-01T12:00")).1 =
      .panicked "runtime error: index out of range [0] with length 0" ∧
    (cron.cronTask app.c (Example.tick [] "2024-01-01T12:00")).1 =
      .panicked "runtime error: index out of range [0] with length 0" ∧
    (cron.cronTask app.c (Example.tick [] "2024-01-01T12:00")).2.events =
      [.httpGet ⟨clients.geocodingUrl, [.str "moscow"]⟩] ∧
    (cron.cronTask app.c (Example.tick [] "2024-01-01T12:00")).2.reading = [] := by
  decide

/-! ## C5: a forecast time that does not parse -/

/-- C5, as stated, fails: the time `2024-01-01T5:04` has a one-digit hour, so it
is not in the exact format, yet `time.Parse` accepts it and the tick stores a
reading. -/
theorem short_hour_is_stored :
    ¬ ∀ (w : World) (g : GeocodingResponse) (r : OpenMeteoResponse),
        (clients.GetCoordinate cron.city w).1 = .returned (g, none) →
        (clients.GetTemperature g.Latitude g.Longitude
          (clients.GetCoordinate cron.city w).2).1 = (r, none) →
        Spec.exactFormat r.Current.Time = false →
        (cron.cronTask app.c w).2.reading = w.reading := by
  intro h
  have h1 := h (Example.tick [Example.moscow] "2024-01-01T5:04") Example.moscow
    ⟨⟨"2024-01-01T5:04", Example.minus5point3⟩⟩ (by decide) (by decide) (by decide)
  revert h1
  decide

/-- C5, amended: when the two clients succeed and the time of the forecast is
neither of the form YYYY-MM-DDTHH:MM nor of that form with a one-digit hour,
the tick returns after the two requests: whatever the weather service, it logs
the parse error, issues no statement and leaves the table as it was. -/
theorem malformed_time_aborts_tick (c : cron.CronWeather) (w : World)
    (g : GeocodingResponse) (r : OpenMeteoResponse)
    (hg : (clients.GetCoordinate cron.city w).1 = .returned (g, none))
    (ht : (clients.GetTemperature g.Latitude g.Longitude
      (clients.GetCoordinate cron.city w).2).1 = (r, none))
    (h1 : Spec.exactFormat r.Current.Time = false)
    (h2 : Spec.shortHourFormat r.Current.Time = false) :
    time.Parse "2006-01-02T15:04" r.Current.Time =
      .error (.ParseError "2006-01-02T15:04" r.Current.Time) ∧
    cron.cronTask c w = (.returned (), slogError (.ParseError "2006-01-02T15:04" r.Current.Time)
      (clients.GetTemperature g.Latitude g.Longitude (clients.GetCoordinate cron.city w).2).2) ∧
    (cron.cronTask c w).2.reading = w.reading ∧
    (cron.cronTask c w).2.events = w.events ++
      [.httpGet ⟨clients.geocodingUrl, [.str "moscow"]⟩,
       .httpGet ⟨clients.openMeteoUrl, [.f64 g.Latitude, .f64 g.Longitude]⟩] := by
  have hp := parse_rejects_other_shapes h1 h2
  have hrun : cron.cronTask c w = (.returned (),
      slogError (.ParseError "2006-01-02T15:04" r.Current.Time)
        (clients.GetTemperature g.Latitude g.Longitude
          (clients.GetCoordinate cron.city w).2).2) := by
    rcases cronTask_run c w with ⟨m, h, -⟩ | ⟨g1, e, h, -⟩ | ⟨g1, r1, e, h, h3, -⟩ |
        ⟨g1, r1, e, h, h3, h4, h5⟩ | ⟨g1, r1, ts, h, h3, h4, -⟩
    · rw [hg] at h; simp at h
    · rw [hg] at h; simp at h
    · rw [hg] at h
      simp only [Outcome.returned.injEq, Prod.mk.injEq, and_true] at h
      subst h
      rw [ht] at h3; simp at h3
    · rw [hg] at h
      simp only [Outcome.returned.injEq, Prod.mk.injEq, and_true] at h
      subst h
      rw [ht] at h3
      simp only [Prod.mk.injEq, and_true] at h3
      subst h3
      rw [hp] at h4
      simp only [Except.error.injEq] at h4
      rw [h5, h4]
    · rw [hg] at h
      simp only [Outcome.returned.injEq, Prod.mk.injEq, and_true] at h
      subst h
      rw [ht] at h3
      simp only [Prod.mk.injEq, and_true] at h3
      subst h3
      rw [hp] at h4; simp at h4
  obtain ⟨f1, -, f3⟩ := getCoordinate_frame cron.city w
  obtain ⟨k1, -, k3⟩ := getTemperature_frame g.Latitude g.Longitude
    (clients.GetCoordinate cron.city w).2
  refine ⟨hp, hrun, ?_, ?_⟩
  · rw [hrun]; simp only [slogError]; rw [k1, f1]
  · rw [hrun]; simp only [slogError]; rw [k3, f3]; simp [cron.city]

/-- C5 amended, on a forecast whose time carries seconds. -/
theorem malformed_time_aborts_tick_witness :
    Spec.exactFormat "2024-01-01T12:00:00" = false ∧
    (cron.cronTask app.c (Example.tick [Example.moscow] "2024-01-01T12:00:00")).2.reading =
      (Example.tick [Example.moscow] "2024-01-01T12:00:00").reading :=
  ⟨by decide,
    (malformed_time_aborts_tick app.c (Example.tick [Example.moscow] "2024-01-01T12:00:00")
      Example.moscow ⟨⟨"2024-01-01T12:00:00", Example.minus5point3⟩⟩
      (by decide) (by decide) (by decide) (by decide)).2.2.1⟩

/-! ## C6: a tick in which every step succeeds -/

/-- C6: when `GetCoordinate("moscow")` succeeds with `g`, `GetTemperature`
succeeds with `r` and the time of `r` parses to `p`, the tick issues, in this
order and nothing else, the geocoding request, the forecast request for
exactly `(g.Latitude, g.Longitude)` and one insert of
`("moscow", r.Current.Temperature2m, p)`; for every weather service its effect
is that of one `AddWeather("moscow", r.Current.Temperature2m, p)`; when the
server stores the row the table gains it; and `2024-01-01T12:00` parses to
2024-01-01 12:00 UTC. -/
theorem tick_stores_reading (w : World) (g : GeocodingResponse) (r : OpenMeteoResponse)
    (p : Time)
    (hg : (clients.GetCoordinate cron.city w).1 = .returned (g, none))
    (ht : (clients.GetTemperature g.Latitude g.Longitude
      (clients.GetCoordinate cron.city w).2).1 = (r, none))
    (hp : time.Parse "2006-01-02T15:04" r.Current.Time = .ok p) :
    (∀ c : cron.CronWeather, cron.cronTask c w = (.returned (),
        match c.weatherService.AddWeather "moscow" r.Current.Temperature2m p
          (clients.GetTemperature g.Latitude g.Longitude
            (clients.GetCoordinate cron.city w).2).2 with
        | (some e, w3) => slogError e w3
        | (none, w3) => w3)) ∧
    (cron.cronTask app.c w).2.events = w.events ++
      [.httpGet ⟨clients.geocodingUrl, [.str "moscow"]⟩,
       .httpGet ⟨clients.openMeteoUrl, [.f64 g.Latitude, .f64 g.Longitude]⟩,
       .sqlExec pgx.insertReading "moscow" r.Current.Temperature2m p] ∧
    (w.insertOutcome = .inserted →
      (cron.cronTask app.c w).2.reading =
        w.reading ++ [⟨"moscow", r.Current.Temperature2m, p⟩]) ∧
    time.Parse "2006-01-02T15:04" "2024-01-01T12:00" = .ok (time.Date 2024 1 1 12 0) := by
  have hrun : ∀ c : cron.CronWeather, cron.cronTask c w = (.returned (),
        match c.weatherService.AddWeather "moscow" r.Current.Temperature2m p
          (clients.GetTemperature g.Latitude g.Longitude
            (clients.GetCoordinate cron.city w).2).2 with
        | (some e, w3) => slogError e w3
        | (none, w3) => w3) := by
    intro c
    rcases cronTask_run c w with ⟨m, h, -⟩ | ⟨g1, e, h, -⟩ | ⟨g1, r1, e, h, h3, -⟩ |
        ⟨g1, r1, e, h, h3, h4, -⟩ | ⟨g1, r1, ts, h, h3, h4, h5⟩
    · rw [hg] at h; simp at h
    · rw [hg] at h; simp at h
    · rw [hg] at h
      simp only [Outcome.returned.injEq, Prod.mk.injEq, and_true] at h
      subst h
      rw [ht] at h3; simp at h3
    · rw [hg] at h
      simp only [Outcome.returned.injEq, Prod.mk.injEq, and_true] at h
      subst h
      rw [ht] at h3
      simp only [Prod.mk.injEq, and_true] at h3
      subst h3
      rw [hp] at h4; simp at h4
    · rw [hg] at h
      simp only [Outcome.returned.injEq, Prod.mk.injEq, and_true] at h
      subst h
      rw [ht] at h3
      simp only [Prod.mk.injEq, and_true] at h3
      subst h3
      rw [hp] at h4
      simp only [Except.ok.injEq] at h4
      subst h4
      exact h5
  obtain ⟨f1, f2, f3⟩ := getCoordinate_frame cron.city w
  obtain ⟨k1, k2, k3⟩ := getTemperature_frame g.Latitude g.Longitude
    (clients.GetCoordinate cron.city w).2
  obtain ⟨a1, a2⟩ := addWeather_frame "moscow" r.Current.Temperature2m p
    (clients.GetTemperature g.Latitude g.Longitude (clients.GetCoordinate cron.city w).2).2
  have hfinal : (cron.cronTask app.c w).2.events =
        (app.service.AddWeather "moscow" r.Current.Temperature2m p
          (clients.GetTemperature g.Latitude g.Longitude
            (clients.GetCoordinate cron.city w).2).2).2.events ∧
      (cron.cronTask app.c w).2.reading =
        (app.service.AddWeather "moscow" r.Current.Temperature2m p
          (clients.GetTemperature g.Latitude g.Longitude
            (clients.GetCoordinate cron.city w).2).2).2.reading := by
    rw [hrun app.c]
    show (match app.service.AddWeather "moscow" r.Current.Temperature2m p _ with
        | (some e, w3) => slogError e w3
        | (none, w3) => w3).events = _ ∧
      (match app.service.AddWeather "moscow" r.Current.Temperature2m p _ with
        | (some e, w3) => slogError e w3
        | (none, w3) => w3).reading = _
    rcases app.service.AddWeather "moscow" r.Current.Temperature2m p
      (clients.GetTemperature g.Latitude g.Longitude (clients.GetCoordinate cron.city w).2).2
      with ⟨_ | e, w3⟩ <;> exact ⟨rfl, rfl⟩
  refine ⟨hrun, ?_, ?_, parse_accepts (by decide)⟩
  · rw [hfinal.1, a1, k3, f3]; simp [cron.city]
  · intro hins
    rw [hfinal.2, a2, k1, f1, k2, f2, if_pos hins]

/-- C6 on the scenario of the specification: moscow at (55.75, 37.62), the
forecast `2024-01-01T12:00` with -5.3, an empty table. -/
theorem tick_stores_reading_witness :
    (cron.cronTask app.c (Example.tick [Example.moscow] "2024-01-01T12:00")).2.events =
      [.httpGet ⟨clients.geocodingUrl, [.str "moscow"]⟩,
       .httpGet ⟨clients.openMeteoUrl, [.f64 Example.lat, .f64 Example.lon]⟩,
       .sqlExec pgx.insertReading "moscow" Example.minus5point3 (time.Date 2024 1 1 12 0)] ∧
    (cron.cronTask app.c (Example.tick [Example.moscow] "2024-01-01T12:00")).2.reading =
      [⟨"moscow", Example.minus5point3, time.Date 2024 1 1 12 0⟩] ∧
    time.Date 2024 1 1 12 0 = 1704110400 :=
  have h := tick_stores_reading (Example.tick [Example.moscow] "2024-01-01T12:00")
    Example.moscow ⟨⟨"2024-01-01T12:00", Example.minus5point3⟩⟩ (time.Date 2024 1 1 12 0)
    (by decide) (by decide) (parse_accepts (by decide))
  ⟨h.2.1, h.2.2.1 rfl, by decide⟩

/-! ## C7: a tick stops at the first step that fails -/

/-- What holds of every tick: it issues at most one geocoding request, at most one
forecast request and at most one insert; unless `GetCoordinate` returns a nil
error it issues no forecast request and no insert; when `GetTemperature`
returns an error it issues no insert; and for every weather service the task
returns normally whenever `GetCoordinate` returns, whatever the later steps
(`GetTemperature`, `time.Parse`, `AddWeather`) return: it has no error to
hand back and it ends the tick after logging. -/
theorem tick_short_circuits (w : World) :
    ∃ evs : List Event,
      (cron.cronTask app.c w).2.events = w.events ++ evs ∧
      evs.countP Spec.isGetCoordinate ≤ 1 ∧
      evs.countP Spec.isGetTemperature ≤ 1 ∧
      evs.countP Spec.isAddWeather ≤ 1 ∧
      ((∀ g, (clients.GetCoordinate cron.city w).1 ≠ .returned (g, none)) →
        evs.countP Spec.isGetTemperature = 0 ∧ evs.countP Spec.isAddWeather = 0) ∧
      ((∃ g r e, (clients.GetCoordinate cron.city w).1 = .returned (g, none) ∧
          (clients.GetTemperature g.Latitude g.Longitude
            (clients.GetCoordinate cron.city w).2).1 = (r, some e)) →
        evs.countP Spec.isAddWeather = 0) ∧
      ∀ c : cron.CronWeather, (cron.cronTask c w).1 =
        (match (clients.GetCoordinate cron.city w).1 with
          | .panicked m => .panicked m
          | .returned _ => .returned ()) := by
  have hout : ∀ c : cron.CronWeather, (cron.cronTask c w).1 =
        (match (clients.GetCoordinate cron.city w).1 with
          | .panicked m => .panicked m
          | .returned _ => .returned ()) := by
    intro c
    rcases cronTask_run c w with ⟨m, h, h5⟩ | ⟨g1, e, h, h5⟩ | ⟨g1, r1, e, h, -, h5⟩ |
        ⟨g1, r1, e, h, -, -, h5⟩ | ⟨g1, r1, ts, h, -, -, h5⟩ <;> rw [h5, h]
  obtain ⟨-, -, f3⟩ := getCoordinate_frame cron.city w
  have c1 : Spec.isGetCoordinate (.httpGet ⟨clients.geocodingUrl, [.str cron.city]⟩) = true := by
    decide
  have c2 : Spec.isGetTemperature (.httpGet ⟨clients.geocodingUrl, [.str cron.city]⟩) = false := by
    decide
  have c3 : Spec.isAddWeather (.httpGet ⟨clients.geocodingUrl, [.str cron.city]⟩) = false := rfl
  have d1 : ∀ a b, Spec.isGetCoordinate (.httpGet ⟨clients.openMeteoUrl, [.f64 a, .f64 b]⟩)
      = false := by
    intro a b; simp [Spec.isGetCoordinate, clients.openMeteoUrl, clients.geocodingUrl]
  have d3 : ∀ a b, Spec.isAddWeather (.httpGet ⟨clients.openMeteoUrl, [.f64 a, .f64 b]⟩)
      = false := fun _ _ => rfl
  have e1 : ∀ q n t ts, Spec.isGetCoordinate (.sqlExec q n t ts) = false := fun _ _ _ _ => rfl
  have e2 : ∀ q n t ts, Spec.isGetTemperature (.sqlExec q n t ts) = false := fun _ _ _ _ => rfl
  rcases cronTask_run app.c w with ⟨m, h, h5⟩ | ⟨g1, e, h, h5⟩ | ⟨g1, r1, e, h, h3, h5⟩ |
      ⟨g1, r1, e, h, h3, h4, h5⟩ | ⟨g1, r1, ts, h, h3, h4, h5⟩
  · refine ⟨[.httpGet ⟨clients.geocodingUrl, [.str cron.city]⟩], ?_, ?_, ?_, ?_, ?_, ?_, hout⟩
    · rw [h5, f3]
    all_goals simp [List.countP_cons, c1, c2, c3]
  · refine ⟨[.httpGet ⟨clients.geocodingUrl, [.str cron.city]⟩], ?_, ?_, ?_, ?_, ?_, ?_, hout⟩
    · rw [h5]; simp only [slogError]; rw [f3]
    all_goals simp [List.countP_cons, c1, c2, c3]
  · obtain ⟨-, -, k3⟩ := getTemperature_frame g1.Latitude g1.Longitude
      (clients.GetCoordinate cron.city w).2
    refine ⟨[.httpGet ⟨clients.geocodingUrl, [.str cron.city]⟩,
      .httpGet ⟨clients.openMeteoUrl, [.f64 g1.Latitude, .f64 g1.Longitude]⟩],
      ?_, ?_, ?_, ?_, ?_, ?_, hout⟩
    · rw [h5]; simp only [slogError]; rw [k3, f3]; simp
    · simp [List.countP_cons, c1, d1]
    · simp [List.countP_cons, c2]; split <;> omega
    · simp [List.countP_cons, c3, d3]
    · intro hno; exact absurd h (hno g1)
    · intro _; simp [List.countP_cons, c3, d3]
  · obtain ⟨-, -, k3⟩ := getTemperature_frame g1.Latitude g1.Longitude
      (clients.GetCoordinate cron.city w).2
    refine ⟨[.httpGet ⟨clients.geocodingUrl, [.str cron.city]⟩,
      .httpGet ⟨clients.openMeteoUrl, [.f64 g1.Latitude, .f64 g1.Longitude]⟩],
      ?_, ?_, ?_, ?_, ?_, ?_, hout⟩
    · rw [h5]; simp only [slogError]; rw [k3, f3]; simp
    · simp [List.countP_cons, c1, d1]
    · simp [List.countP_cons, c2]; split <;> omega
    · simp [List.countP_cons, c3, d3]
    · intro hno; exact absurd h (hno g1)
    · intro _; simp [List.countP_cons, c3, d3]
  · obtain ⟨-, -, k3⟩ := getTemperature_frame g1.Latitude g1.Longitude
      (clients.GetCoordinate cron.city w).2
    obtain ⟨a1, -⟩ := addWeather_frame cron.city r1.Current.Temperature2m ts
      (clients.GetTemperature g1.Latitude g1.Longitude (clients.GetCoordinate cron.city w).2).2
    have hev : (cron.cronTask app.c w).2.events =
        (app.service.AddWeather cron.city r1.Current.Temperature2m ts
          (clients.GetTemperature g1.Latitude g1.Longitude
            (clients.GetCoordinate cron.city w).2).2).2.events := by
      rw [h5]
      show (match app.service.AddWeather cron.city r1.Current.Temperature2m ts _ with
        | (some e, w3) => slogError e w3
        | (none, w3) => w3).events = _
      rcases app.service.AddWeather cron.city r1.Current.Temperature2m ts
        (clients.GetTemperature g1.Latitude g1.Longitude (clients.GetCoordinate cron.city w).2).2
        with ⟨_ | e, w3⟩ <;> rfl
    refine ⟨[.httpGet ⟨clients.geocodingUrl, [.str cron.city]⟩,
      .httpGet ⟨clients.openMeteoUrl, [.f64 g1.Latitude, .f64 g1.Longitude]⟩,
      .sqlExec pgx.insertReading cron.city r1.Current.Temperature2m ts],
      ?_, ?_, ?_, ?_, ?_, ?_, hout⟩
    · rw [hev, a1, k3, f3]; simp
    · simp [List.countP_cons, c1, d1, e1]
    · simp [List.countP_cons, c2, e2]; split <;> omega
    · simp [List.countP_cons, c3, d3]; split <;> omega
    · intro hno; exact absurd h (hno g1)
    · rintro ⟨g2, r2, e, hg2, ht2⟩
      rw [h] at hg2
      simp only [Outcome.returned.injEq, Prod.mk.injEq, and_true] at hg2
      subst hg2
      rw [h3] at ht2; simp at ht2

/-- C7: the claim asks that every tick returns normally, whichever step fails.
When the geocoding service answers 200 with an empty result list, the step
`GetCoordinate` fails by a panic and `cronTask` does not return: it panics with
`index out of range`, after the one geocoding request.  So it is not true that
every tick returns normally. -/
theorem tick_panics_on_empty_results :
    (cron.cronTask app.c (Example.tick [] "2024-01-01T12:00")).1 ≠ .returned () ∧
    (cron.cronTask app.c (Example.tick [] "2024-01-01T12:00")).1 =
      .panicked clients.indexOutOfRange ∧
    ¬ ∀ w : World, (cron.cronTask app.c w).1 = .returned () := by
  refine ⟨by decide, by decide, ?_⟩
  intro h
  have h1 := h (Example.tick [] "2024-01-01T12:00")
  revert h1
  decide

/-! ## C12: the table only grows -/

theorem read_frame (city : String) (w : World) :
    (storage.ReadWeatherByCity city w).2 = w.emit (.sqlQueryRow pgx.selectLatest city) := by
  cases hq : w.queryFailure with
  | some err => rw [read_failed hq]
  | none =>
    cases hh : (pgx.rowsOf city w.reading).head? with
    | none => rw [read_missing hq hh]
    | some r => rw [read_found hq hh]

theorem getWeather_frame (city : String) (w : World) :
    (app.service.GetWeather city w).2 = w.emit (.sqlQueryRow pgx.selectLatest city) := by
  rw [getWeather_eq]
  show (match storage.ReadWeatherByCity city w with
    | ((_, some e), w1) => ((models.Weather.zero, some e), w1)
    | ((d, none), w1) => ((⟨d.Name, d.Temperature⟩, none), w1)).2 = _
  rw [← read_frame city w]
  rcases storage.ReadWeatherByCity city w with ⟨⟨d, _ | e⟩, w1⟩ <;> rfl

theorem step_appends (op : Spec.Op) (w : World) :
    ∃ added : List Reading, (Spec.step op w).reading = w.reading ++ added ∧ added.length ≤ 1 := by
  cases op with
  | AddWeather server name temperature timestamp =>
    refine ⟨if server = .inserted then [⟨name, temperature, timestamp⟩] else [], ?_, ?_⟩
    · exact (addWeather_frame name temperature timestamp { w with insertOutcome := server }).2
    · split <;> simp
  | GetWeather connection city =>
    refine ⟨[], ?_, by simp⟩
    show (app.service.GetWeather city { w with queryFailure := connection }).2.reading = _
    rw [getWeather_frame]
    simp [World.emit]

theorem run_appends (ops : List Spec.Op) (w : World) :
    ∃ added : List Reading,
      (Spec.run ops w).reading = w.reading ++ added ∧ added.length ≤ ops.length := by
  induction ops generalizing w with
  | nil => exact ⟨[], by simp [Spec.run], by simp⟩
  | cons op ops ih =>
    obtain ⟨a1, h1, l1⟩ := step_appends op w
    obtain ⟨a2, h2, l2⟩ := ih (Spec.step op w)
    refine ⟨a1 ++ a2, ?_, ?_⟩
    · show (Spec.run ops (Spec.step op w)).reading = _
      rw [h2, h1, List.append_assoc]
    · simp only [List.length_append, List.length_cons]
      omega

/-- C12: the table after `AddWeather` (the same as after `CreateWeatherCity`) is
the table before it followed by the one reading `(name, temperature,
timestamp)` when the call succeeds and by nothing when it fails; `GetWeather`
and `ReadWeatherByCity` leave the table as it was, whether they succeed or
fail; and after any sequence of these operations, each under any behaviour of
the server and of the connection, the table is the table before it followed by
at most one reading per operation. -/
theorem store_is_append_only (w : World) (name : String) (temperature : Float64)
    (timestamp : Time) (city : String) (ops : List Spec.Op) :
    (app.service.AddWeather name temperature timestamp w).2.reading =
      w.reading ++ (if (app.service.AddWeather name temperature timestamp w).1 = none
        then [⟨name, temperature, timestamp⟩] else []) ∧
    (storage.CreateWeatherCity name temperature timestamp w).2.reading =
      w.reading ++ (if (storage.CreateWeatherCity name temperature timestamp w).1 = none
        then [⟨name, temperature, timestamp⟩] else []) ∧
    (app.service.GetWeather city w).2.reading = w.reading ∧
    (storage.ReadWeatherByCity city w).2.reading = w.reading ∧
    ∃ added : List Reading,
      (Spec.run ops w).reading = w.reading ++ added ∧ added.length ≤ ops.length := by
  have hadd : (storage.CreateWeatherCity name temperature timestamp w).2.reading =
      w.reading ++ (if (storage.CreateWeatherCity name temperature timestamp w).1 = none
        then [⟨name, temperature, timestamp⟩] else []) := by
    have h1 := (addWeather_frame name temperature timestamp w).2
    have h2 := create_ok_iff w name temperature timestamp
    by_cases hi : w.insertOutcome = .inserted
    · rw [if_pos (h2.mpr hi)]
      rw [if_pos hi] at h1
      exact h1
    · rw [if_neg (fun hc => hi (h2.mp hc))]
      rw [if_neg hi] at h1
      exact h1
  refine ⟨hadd, hadd, ?_, ?_, run_appends ops w⟩
  · rw [getWeather_frame]; simp [World.emit]
  · rw [read_frame]; simp [World.emit]

/-! ## C13: the address the server listens on -/

theorem mustRun_addr (s : http.Server) (ListenAndServe : String → Option GoError) :
    (s.MustRun ListenAndServe).addr = http.SprintfAddr s.host s.port := by
  cases h : ListenAndServe (http.SprintfAddr s.host s.port) <;>
    simp [http.Server.MustRun, h]

/-- C13: the claim asks for the address `h:p`; `NewServer` drops its argument
`host`, so for every port, host, handler and listener `MustRun` listens on
`:p`, the address of an empty host, and that is the address `h:p` only when
`h` is empty.  With host `localhost` and port 8080 it listens on `:8080`. -/
theorem server_listens_without_host (port : Int) (host : String) (hs : handlers.Handlers)
    (ListenAndServe : String → Option GoError) :
    ((http.NewServer () port host hs).MustRun ListenAndServe).addr = http.SprintfAddr "" port ∧
    (((http.NewServer () port host hs).MustRun ListenAndServe).addr =
      http.SprintfAddr host port ↔ host = "") ∧
    ((http.NewServer () 8080 "localhost" hs).MustRun ListenAndServe).addr = ":8080" ∧
    http.SprintfAddr "localhost" 8080 = "localhost:8080" := by
  have h1 : ((http.NewServer () port host hs).MustRun ListenAndServe).addr =
      http.SprintfAddr "" port := mustRun_addr _ _
  have h3 : ((http.NewServer () 8080 "localhost" hs).MustRun ListenAndServe).addr = ":8080" := by
    rw [mustRun_addr]
    show http.SprintfAddr "" 8080 = ":8080"
    decide
  refine ⟨h1, ?_, h3, by decide⟩
  rw [h1]
  constructor
  · intro h
    have hd := congrArg String.data h
    simp only [http.SprintfAddr, String.data_append] at hd
    have hd2 : ([] : List Char) ++ ((":" : String).data ++ (toString port).data) =
        host.data ++ ((":" : String).data ++ (toString port).data) := by
      simpa [List.append_assoc] using hd
    have hd3 := List.append_cancel_right hd2
    exact String.ext hd3.symm
  · intro h
    rw [h]

/-! ## Lemmas on the JSON encoders -/

theorem hexValue_hex (k : Nat) (hk : k < 16) : Spec.hexValue (json.hex k) = some k := by
  interval_cases k <;> decide

theorem escape_read (c : Char) (tail : List Char) :
    Spec.readChar (json.escape c ++ tail) = some (c, tail) ∧
    ∃ h t, json.escape c ++ tail = h :: t ∧ h.toNat ≠ 34 := by
  have hz : Spec.hexValue '0' = some 0 := by decide
  have h2 : Spec.hexValue '2' = some 2 := by decide
  have hb : json.backslash.toNat = 92 := by decide
  unfold json.escape
  simp only
  split_ifs with c1 c2 c3 c4 c5 c6 c7 c8
  · refine ⟨?_, json.backslash, c :: tail, rfl, by rw [hb]; decide⟩
    rcases c1 with h | h <;> simp [Spec.readChar, hb, h]
  · refine ⟨?_, json.backslash, 'b' :: tail, rfl, by rw [hb]; decide⟩
    simp [Spec.readChar, hb]
    rw [← c2]; exact Char.ofNat_toNat c
  · refine ⟨?_, json.backslash, 'f' :: tail, rfl, by rw [hb]; decide⟩
    simp [Spec.readChar, hb]
    rw [← c3]; exact Char.ofNat_toNat c
  · refine ⟨?_, json.backslash, 'n' :: tail, rfl, by rw [hb]; decide⟩
    simp [Spec.readChar, hb]
    rw [← c4]; exact Char.ofNat_toNat c
  · refine ⟨?_, json.backslash, 'r' :: tail, rfl, by rw [hb]; decide⟩
    simp [Spec.readChar, hb]
    rw [← c5]; exact Char.ofNat_toNat c
  · refine ⟨?_, json.backslash, 't' :: tail, rfl, by rw [hb]; decide⟩
    simp [Spec.readChar, hb]
    rw [← c6]; exact Char.ofNat_toNat c
  · refine ⟨?_, json.backslash, _, rfl, by rw [hb]; decide⟩
    have hlt : c.toNat < 256 := by omega
    have hh : Spec.hexValue (json.hex (c.toNat / 16)) = some (c.toNat / 16) :=
      hexValue_hex _ (by omega)
    have hl : Spec.hexValue (json.hex (c.toNat % 16)) = some (c.toNat % 16) :=
      hexValue_hex _ (by omega)
    simp [Spec.readChar, hb, hz, hh, hl]
    rw [show c.toNat / 16 * 16 + c.toNat % 16 = c.toNat by omega]
    exact Char.ofNat_toNat c
  · refine ⟨?_, json.backslash, _, rfl, by rw [hb]; decide⟩
    have hl : Spec.hexValue (json.hex (c.toNat % 16)) = some (c.toNat % 16) :=
      hexValue_hex _ (by omega)
    simp [Spec.readChar, hb, hz, h2, hl]
    rw [show 8224 + c.toNat % 16 = c.toNat by omega]
    exact Char.ofNat_toNat c
  · refine ⟨?_, c, tail, rfl, by omega⟩
    have h92 : c.toNat ≠ 92 := by omega
    simp [Spec.readChar, h92]

theorem readString_escapeAll (cs tail : List Char) (q : Char) (hq : q.toNat = 34) :
    ∀ fuel, cs.length < fuel →
      Spec.readString fuel (json.escapeAll cs ++ q :: tail) = some (cs, tail) := by
  induction cs with
  | nil =>
    intro fuel hf
    cases fuel with
    | zero => omega
    | succ f => simp [json.escapeAll, Spec.readString, hq]
  | cons c cs ih =>
    intro fuel hf
    cases fuel with
    | zero => omega
    | succ f =>
      obtain ⟨hr, h, t, ht, hne⟩ := escape_read c (json.escapeAll cs ++ q :: tail)
      have hlist : json.escapeAll (c :: cs) ++ q :: tail = h :: t := by
        rw [← ht]; simp [json.escapeAll]
      rw [hlist]
      have hr2 : Spec.readChar (h :: t) = some (c, json.escapeAll cs ++ q :: tail) := by
        rw [← ht]; exact hr
      have hrec := ih f (by simp only [List.length_cons] at hf; omega)
      simp [Spec.readString, hne, hr2, hrec]

theorem digitChar_number (k : Nat) : Spec.isNumberChar (strconv.digitChar k) = true := by
  unfold strconv.digitChar
  have h : k % 10 < 10 := Nat.mod_lt _ (by decide)
  generalize k % 10 = m at h
  interval_cases m <;> decide

theorem digitsAux_number (fuel : Nat) :
    ∀ (n : Nat) (acc : List Char), (∀ c ∈ acc, Spec.isNumberChar c = true) →
      ∀ c ∈ strconv.digitsAux fuel n acc, Spec.isNumberChar c = true := by
  induction fuel with
  | zero =>
    intro n acc hacc c hc
    exact hacc c (by simpa [strconv.digitsAux] using hc)
  | succ f ih =>
    intro n acc hacc
    unfold strconv.digitsAux
    split_ifs with h
    · intro c hc
      rcases List.mem_cons.mp hc with hc | hc
      · rw [hc]; exact digitChar_number _
      · exact hacc c hc
    · apply ih
      intro c hc
      rcases List.mem_cons.mp hc with hc | hc
      · rw [hc]; exact digitChar_number _
      · exact hacc c hc

theorem digits_number (n : Nat) : ∀ c ∈ strconv.digits n, Spec.isNumberChar c = true :=
  digitsAux_number _ n [] (by simp)

theorem shortest_number (mant : Nat) (exp : Int) :
    ∀ c ∈ (strconv.ryuFtoaShortest mant exp).d, Spec.isNumberChar c = true := by
  unfold strconv.ryuFtoaShortest
  split_ifs with h
  · simp
  · simp only []
    split
    · simp
    · exact digits_number _

theorem fmtF_number (neg : Bool) (d : strconv.decimalSlice)
    (hd : ∀ c ∈ d.d, Spec.isNumberChar c = true) :
    (∀ c ∈ strconv.fmtF neg d, Spec.isNumberChar c = true) ∧ strconv.fmtF neg d ≠ [] := by
  have hminus : Spec.isNumberChar '-' = true := by decide
  have hzero : Spec.isNumberChar '0' = true := by decide
  have hpoint : Spec.isNumberChar '.' = true := by decide
  have hint : (∀ c ∈ (if 0 < d.dp then
        d.d.take d.dp.toNat ++ List.replicate (d.dp.toNat - d.d.length) '0' else ['0']),
      Spec.isNumberChar c = true) ∧
      (if 0 < d.dp then
        d.d.take d.dp.toNat ++ List.replicate (d.dp.toNat - d.d.length) '0' else ['0']) ≠ [] := by
    split_ifs with h
    · constructor
      · intro c hc
        rcases List.mem_append.mp hc with hc | hc
        · exact hd c (List.mem_of_mem_take hc)
        · rw [(List.mem_replicate.mp hc).2]; exact hzero
      · intro hnil
        have hlen := congrArg List.length hnil
        simp only [List.length_append, List.length_take, List.length_replicate,
          List.length_nil] at hlen
        omega
    · exact ⟨by simp [hzero], by simp⟩
  unfold strconv.fmtF
  simp only []
  constructor
  · intro c hc
    rcases List.mem_append.mp hc with hc | hc
    · rcases List.mem_append.mp hc with hc | hc
      · split_ifs at hc
        · rw [List.mem_singleton.mp hc]; exact hminus
        · simp at hc
      · exact hint.1 c hc
    · split_ifs at hc
      · rcases List.mem_cons.mp hc with hc | hc
        · rw [hc]; exact hpoint
        · rcases List.mem_append.mp hc with hc | hc
          · rw [(List.mem_replicate.mp hc).2]; exact hzero
          · exact hd c (List.mem_of_mem_drop hc)
      · simp at hc
  · intro hnil
    have h1 := (List.append_eq_nil.mp hnil).1
    exact hint.2 (List.append_eq_nil.mp h1).2

theorem fmtE_number (neg : Bool) (d : strconv.decimalSlice)
    (hd : ∀ c ∈ d.d, Spec.isNumberChar c = true) :
    (∀ c ∈ strconv.fmtE neg d, Spec.isNumberChar c = true) ∧ strconv.fmtE neg d ≠ [] := by
  have hminus : Spec.isNumberChar '-' = true := by decide
  have hplus : Spec.isNumberChar '+' = true := by decide
  have hzero : Spec.isNumberChar '0' = true := by decide
  have hpoint : Spec.isNumberChar '.' = true := by decide
  have he : Spec.isNumberChar 'e' = true := by decide
  have hfirst : ∀ c ∈ (match d.d with
      | [] => ['0']
      | c :: rest => if rest = [] then [c] else c :: '.' :: rest),
      Spec.isNumberChar c = true := by
    intro c hc
    split at hc
    · rw [List.mem_singleton.mp hc]; exact hzero
    · rename_i c0 rest heq
      have h0 : Spec.isNumberChar c0 = true := hd c0 (by rw [heq]; simp)
      split_ifs at hc
      · rw [List.mem_singleton.mp hc]; exact h0
      · rcases List.mem_cons.mp hc with hc | hc
        · rw [hc]; exact h0
        · rcases List.mem_cons.mp hc with hc | hc
          · rw [hc]; exact hpoint
          · exact hd c (by rw [heq]; exact List.mem_cons_of_mem _ hc)
  have hsign : ∀ x : Int, Spec.isNumberChar (if x < 0 then '-' else '+') = true := by
    intro x
    split_ifs
    · exact hminus
    · exact hplus
  have hexp : ∀ e : Nat, ∀ c ∈ (if e < 10 then ['0', strconv.digitChar e] else strconv.digits e),
      Spec.isNumberChar c = true := by
    intro e c hc
    split_ifs at hc
    · rcases List.mem_cons.mp hc with hc | hc
      · rw [hc]; exact hzero
      · rw [List.mem_singleton.mp hc]; exact digitChar_number _
    · exact digits_number _ c hc
  unfold strconv.fmtE
  simp only []
  constructor
  · intro c hc
    rcases List.mem_append.mp hc with hc | hc
    · rcases List.mem_append.mp hc with hc | hc
      · rcases List.mem_append.mp hc with hc | hc
        · split_ifs at hc
          · rw [List.mem_singleton.mp hc]; exact hminus
          · simp at hc
        · exact hfirst c hc
      · rcases List.mem_cons.mp hc with hc | hc
        · rw [hc]; exact he
        · have hc2 := List.mem_singleton.mp hc
          rw [hc2]
          exact hsign _
    · exact hexp _ c hc
  · intro hnil
    have h1 := (List.append_eq_nil.mp hnil).1
    have h2 := (List.append_eq_nil.mp h1).2
    simp at h2

theorem appendFloat_number (f : Float64) (fmt : Char) :
    (∀ c ∈ strconv.AppendFloat f fmt, Spec.isNumberChar c = true) ∧
      strconv.AppendFloat f fmt ≠ [] := by
  unfold strconv.AppendFloat
  simp only []
  by_cases hf : fmt = 'e'
  · rw [if_pos hf]; exact fmtE_number _ _ (shortest_number _ _)
  · rw [if_neg hf]; exact fmtF_number _ _ (shortest_number _ _)

theorem cleanExponent_number (b : List Char)
    (hall : (∀ c ∈ b, Spec.isNumberChar c = true) ∧ b ≠ []) :
    (∀ c ∈ (match b.reverse with
        | d :: z :: s :: e :: rest =>
          if e = 'e' ∧ (s = '-' ∨ s = '+') ∧ z = '0' then (d :: s :: e :: rest).reverse else b
        | _ => b), Spec.isNumberChar c = true) ∧
      (match b.reverse with
        | d :: z :: s :: e :: rest =>
          if e = 'e' ∧ (s = '-' ∨ s = '+') ∧ z = '0' then (d :: s :: e :: rest).reverse else b
        | _ => b) ≠ [] := by
  split
  · rename_i d z s e rest heq
    by_cases hcond : e = 'e' ∧ (s = '-' ∨ s = '+') ∧ z = '0'
    · rw [if_pos hcond]
      constructor
      · intro c hc
        have hc1 : c ∈ d :: s :: e :: rest := List.mem_reverse.mp hc
        have hc2 : c ∈ b.reverse := by
          rw [heq]
          rcases List.mem_cons.mp hc1 with h | h
          · rw [h]; simp
          · exact List.mem_cons_of_mem _ (List.mem_cons_of_mem _ h)
        exact hall.1 c (List.mem_reverse.mp hc2)
      · simp
    · rw [if_neg hcond]; exact hall
  · exact hall

theorem floatEncoder_number (f : Float64) :
    (∀ c ∈ json.floatEncoder f, Spec.isNumberChar c = true) ∧ json.floatEncoder f ≠ [] := by
  unfold json.floatEncoder
  simp only []
  generalize (if f.bits % 2 ^ 63 ≠ 0 ∧
    (f.bits % 2 ^ 63 < 0x3EB0C6F7A0B5ED8D ∨ 0x444B1AE4D6E2EF50 ≤ f.bits % 2 ^ 63)
    then 'e' else 'f') = fmt
  by_cases hf : fmt = 'e'
  · rw [if_pos hf]
    exact cleanExponent_number _ (appendFloat_number f fmt)
  · rw [if_neg hf]
    exact appendFloat_number f fmt

theorem readValue_number (f : Float64) (closing : Char) (rest : List Char)
    (hclose : closing.toNat = 125) :
    Spec.readValue (json.floatEncoder f ++ closing :: rest) =
      some (.number (String.mk (json.floatEncoder f)), closing :: rest) := by
  obtain ⟨hall, hne⟩ := floatEncoder_number f
  have hcl : Spec.isNumberChar closing = false := by
    simp [Spec.isNumberChar, hclose]
  have htake : (json.floatEncoder f ++ closing :: rest).takeWhile Spec.isNumberChar =
      json.floatEncoder f := by
    rw [List.takeWhile_append_of_pos hall]
    simp [List.takeWhile_cons, hcl]
  have hdrop : (json.floatEncoder f ++ closing :: rest).dropWhile Spec.isNumberChar =
      closing :: rest := by
    rw [List.dropWhile_append_of_pos hall]
    simp [List.dropWhile_cons, hcl]
  cases hF : json.floatEncoder f with
  | nil => exact absurd hF hne
  | cons c cs =>
    have hc : Spec.isNumberChar c = true := hall c (by rw [hF]; simp)
    have hc34 : c.toNat ≠ 34 := by
      intro h34
      simp [Spec.isNumberChar, h34] at hc
    rw [hF] at htake hdrop
    simp only [List.cons_append] at htake hdrop ⊢
    unfold Spec.readValue
    simp only [hc34, if_false]
    rw [htake, hdrop]
    simp

theorem readString_literal (cs tail : List Char) (q : Char) (hq : q.toNat = 34)
    (fuel : Nat) (hf : (json.escapeAll cs).length < fuel) :
    Spec.readString fuel (json.escapeAll cs ++ q :: tail) = some (cs, tail) := by
  apply readString_escapeAll cs tail q hq fuel
  have hlen : ∀ l : List Char, l.length ≤ (json.escapeAll l).length := by
    intro l
    induction l with
    | nil => simp [json.escapeAll]
    | cons c l ih =>
      obtain ⟨-, h, t, ht, -⟩ := escape_read c []
      have h1 : 1 ≤ (json.escape c).length := by
        have := congrArg List.length ht
        simp only [List.append_nil, List.length_cons] at this
        omega
      simp only [json.escapeAll, List.length_append, List.length_cons]
      omega
  exact Nat.lt_of_le_of_lt (hlen cs) hf

theorem readValue_string (text tail : List Char) (q1 q2 : Char)
    (hq1 : q1.toNat = 34) (hq2 : q2.toNat = 34) :
    Spec.readValue (q1 :: (json.escapeAll text ++ q2 :: tail)) =
      some (.string (String.mk text), tail) := by
  unfold Spec.readValue
  simp only [hq1, if_true]
  rw [readString_literal text tail q2 hq2 _
    (by simp only [List.length_cons, List.length_append]; omega)]

theorem readMembers_member (fuel : Nat) (key vtail rest4 : List Char) (value : Spec.Value)
    (q1 q2 colon sep : Char) (hq1 : q1.toNat = 34) (hq2 : q2.toNat = 34)
    (hcolon : colon.toNat = 58)
    (hv : Spec.readValue vtail = some (value, sep :: rest4)) :
    Spec.readMembers (fuel + 1) (q1 :: (json.escapeAll key ++ q2 :: colon :: vtail)) =
      if sep.toNat = 44 then
        match Spec.readMembers fuel rest4 with
        | none => none
        | some more => some ((String.mk key, value) :: more)
      else if sep.toNat = 125 ∧ rest4 = [] then some [(String.mk key, value)]
      else none := by
  rw [Spec.readMembers]
  simp only [hq1, if_true]
  rw [readString_literal key (colon :: vtail) q2 hq2 _
    (by simp only [List.length_cons, List.length_append]; omega)]
  simp only [hcolon, if_true, hv]

/-- The body `json.Marshal` writes for a `Weather` with a finite temperature. -/
theorem marshal_finite (v : models.Weather)
    (hnan : math.IsNaN v.Temperature = false) (hinf : math.IsInf v.Temperature = false) :
    json.Marshal v = .ok ("\x7b\"name\":" ++ String.mk (json.appendString v.Name) ++
      ",\"temperature\":" ++ String.mk (json.floatEncoder v.Temperature) ++ "\x7d") := by
  simp [json.Marshal, hnan, hinf]

/-- The body of `json.Marshal` reads back as the two members it was made of. -/
theorem members_of_body (n : String) (t : Float64) :
    Spec.members ("\x7b\"name\":" ++ String.mk (json.appendString n) ++
        ",\"temperature\":" ++ String.mk (json.floatEncoder t) ++ "\x7d") =
      some [("name", .string n), ("temperature", .number (String.mk (json.floatEncoder t)))] := by
  have hq : json.quote.toNat = 34 := by decide
  have h1 : ("\x7b\"name\":" : String).data =
      Char.ofNat 123 :: json.quote :: (json.escapeAll "name".toList ++
        [json.quote, Char.ofNat 58]) := by decide
  have h2 : (",\"temperature\":" : String).data =
      Char.ofNat 44 :: json.quote :: (json.escapeAll "temperature".toList ++
        [json.quote, Char.ofNat 58]) := by decide
  have h3 : ("\x7d" : String).data = [Char.ofNat 125] := by decide
  have hbody : ("\x7b\"name\":" ++ String.mk (json.appendString n) ++
        ",\"temperature\":" ++ String.mk (json.floatEncoder t) ++ "\x7d").toList =
      Char.ofNat 123 :: (json.quote :: (json.escapeAll "name".toList ++
        json.quote :: Char.ofNat 58 ::
          (json.quote :: (json.escapeAll n.toList ++ json.quote :: Char.ofNat 44 ::
            (json.quote :: (json.escapeAll "temperature".toList ++
              json.quote :: Char.ofNat 58 ::
                (json.floatEncoder t ++ Char.ofNat 125 :: []))))))) := by
    show (_ : String).data = _
    rw [String.data_append, String.data_append, String.data_append, String.data_append,
      h1, h2, h3]
    simp only [json.appendString, String.toList, List.append_assoc, List.cons_append,
      List.nil_append]
  have hv2 := readValue_number t (Char.ofNat 125) [] (by decide)
  have hv1 := readValue_string n.toList
    (Char.ofNat 44 :: (json.quote :: (json.escapeAll "temperature".toList ++
      json.quote :: Char.ofNat 58 :: (json.floatEncoder t ++ Char.ofNat 125 :: []))))
    json.quote json.quote hq hq
  unfold Spec.members
  rw [hbody]
  simp only [show (Char.ofNat 123).toNat = 123 by decide, if_true]
  obtain ⟨k, hk⟩ : ∃ k, (json.quote :: (json.escapeAll "name".toList ++
        json.quote :: Char.ofNat 58 ::
          (json.quote :: (json.escapeAll n.toList ++ json.quote :: Char.ofNat 44 ::
            (json.quote :: (json.escapeAll "temperature".toList ++
              json.quote :: Char.ofNat 58 ::
                (json.floatEncoder t ++ Char.ofNat 125 :: []))))))).length = k + 2 := by
    apply Nat.exists_eq_add_of_le'
    simp only [List.length_cons, List.length_append]
    omega
  rw [hk]
  rw [readMembers_member (k + 1) "name".toList _ _ _ json.quote json.quote (Char.ofNat 58)
    (Char.ofNat 44) hq hq (by decide) hv1]
  simp only [show (Char.ofNat 44).toNat = 44 by decide, if_true]
  rw [readMembers_member k "temperature".toList _ _ _ json.quote json.quote (Char.ofNat 58)
    (Char.ofNat 125) hq hq (by decide) hv2]
  simp only [show (Char.ofNat 125).toNat = 125 by decide]
  simp

/-- The float encoder on some values: zero and minus zero, 1, 100, 0.1, -5.3,
55.75, the two thresholds 1e21 and 1e-6 of the exponent form, 1e-7 and
1e20. -/
theorem floatEncoder_samples :
    String.mk (json.floatEncoder ⟨0⟩) = "0" ∧
    String.mk (json.floatEncoder ⟨0x8000000000000000⟩) = "-0" ∧
    String.mk (json.floatEncoder ⟨0x3FF0000000000000⟩) = "1" ∧
    String.mk (json.floatEncoder ⟨0x4059000000000000⟩) = "100" ∧
    String.mk (json.floatEncoder ⟨0x3FB999999999999A⟩) = "0.1" ∧
    String.mk (json.floatEncoder Example.minus5point3) = "-5.3" ∧
    String.mk (json.floatEncoder Example.lat) = "55.75" ∧
    String.mk (json.floatEncoder ⟨0x444B1AE4D6E2EF50⟩) = "1e+21" ∧
    String.mk (json.floatEncoder ⟨0x3EB0C6F7A0B5ED8D⟩) = "0.000001" ∧
    String.mk (json.floatEncoder ⟨0x3E7AD7F29ABCAF48⟩) = "1e-7" ∧
    String.mk (json.floatEncoder ⟨0x4415AF1D78B58C40⟩) = "100000000000000000000" := by
  refine ⟨by decide, by decide, by decide, by decide, by decide, by decide, by decide,
    by decide, by decide, by decide, by decide⟩

/-- The string encoder on a text with a quotation mark, a backslash, the three
characters escaped for HTML, a line feed and a control character. -/
theorem appendString_samples :
    String.mk (json.appendString "moscow") = "\"moscow\"" ∧
    String.mk (json.appendString "a\"b\\c<d>&e\nf\x01g") =
      "\"a\\\"b\\\\c\\u003cd\\u003e\\u0026e\\nf\\u0001g\"" := by
  refine ⟨by decide, by decide⟩

/-! ## C11: the handler on a successful lookup -/

/-- C11, as stated, fails: with a reading of moscow whose temperature is NaN in
the table, `GetWeather` succeeds, `json.Marshal` refuses the value and `getCity`
answers status 500 with an empty body. -/
theorem getCity_nan_answers_500 :
    ¬ ∀ (h : handlers.Handlers) (r : handlers.Request) (w : World)
        (n : String) (t : Float64),
        (h.weatherService.GetWeather r.city w).1 = (⟨n, t⟩, none) →
        (handlers.getCity json.Marshal h handlers.ResponseWriter.fresh r w).1.status
          = some 200 := by
  intro h
  have h1 := h app.h ⟨"moscow"⟩
    (Example.store [⟨"moscow", Example.nan, 0⟩]) "moscow" Example.nan (by decide)
  revert h1
  decide

/-- C11, amended: when `GetWeather` succeeds with `Weather{Name: n, Temperature: t}`
and `t` is finite (neither NaN nor an infinity), `getCity` answers status 200
with the body that `json.Marshal` writes: an opening brace, the key `name` with
the JSON string of `n`, a comma, the key `temperature` with the JSON number of
`t`, a closing brace.  Read as a JSON object, this body has exactly two
members, `name` with the text `n` and `temperature` with the number written
for `t`, in that order, and so no member `timestamp`.  For the name `moscow`
and the temperature -5.3 the body is the object with `"name":"moscow"` and
`"temperature":-5.3`. -/
theorem getCity_success_response (h : handlers.Handlers)
    (r : handlers.Request) (w : World) (n : String) (t : Float64)
    (hget : (h.weatherService.GetWeather r.city w).1 = (⟨n, t⟩, none))
    (hnan : math.IsNaN t = false) (hinf : math.IsInf t = false) :
    (handlers.getCity json.Marshal h handlers.ResponseWriter.fresh r w).1 =
      ⟨some 200, "\x7b\"name\":" ++ String.mk (json.appendString n) ++ ",\"temperature\":" ++
        String.mk (json.floatEncoder t) ++ "\x7d"⟩ ∧
    Spec.members ("\x7b\"name\":" ++ String.mk (json.appendString n) ++ ",\"temperature\":" ++
        String.mk (json.floatEncoder t) ++ "\x7d") =
      some [("name", .string n), ("temperature", .number (String.mk (json.floatEncoder t)))] ∧
    json.Marshal ⟨"moscow", Example.minus5point3⟩ =
      .ok "\x7b\"name\":\"moscow\",\"temperature\":-5.3\x7d" := by
  have herr : (h.weatherService.GetWeather r.city w).1.2 = none := by rw [hget]
  have hw : (h.weatherService.GetWeather r.city w).1.1 = ⟨n, t⟩ := by rw [hget]
  have hm := marshal_finite ⟨n, t⟩ hnan hinf
  refine ⟨?_, members_of_body n t, ?_⟩
  · simp [handlers.getCity, herr, hw, models.Weather.ToResponse, hm,
      handlers.ResponseWriter.WriteHeader, handlers.ResponseWriter.Write,
      handlers.ResponseWriter.fresh, http.StatusOK]
  · rw [marshal_finite ⟨"moscow", Example.minus5point3⟩ (by decide) (by decide)]
    exact congrArg Except.ok (by decide)

/-- C11 amended, on the deployed wiring with the reading of the specification
in the table: the answer to the request for moscow, and its two members. -/
theorem getCity_success_response_witness :
    (handlers.getCity json.Marshal app.h handlers.ResponseWriter.fresh ⟨"moscow"⟩
      (Example.store [⟨"moscow", Example.minus5point3, time.Date 2024 1 1 12 0⟩])).1 =
        ⟨some 200, "\x7b\"name\":\"moscow\",\"temperature\":-5.3\x7d"⟩ ∧
    Spec.members "\x7b\"name\":\"moscow\",\"temperature\":-5.3\x7d" =
      some [("name", .string "moscow"), ("temperature", .number "-5.3")] :=
  have h := getCity_success_response app.h ⟨"moscow"⟩
    (Example.store [⟨"moscow", Example.minus5point3, time.Date 2024 1 1 12 0⟩])
    "moscow" Example.minus5point3 (by decide) (by decide) (by decide)
  have e : "\x7b\"name\":" ++ String.mk (json.appendString "moscow") ++ ",\"temperature\":" ++
      String.mk (json.floatEncoder Example.minus5point3) ++ "\x7d" =
      "\x7b\"name\":\"moscow\",\"temperature\":-5.3\x7d" := by decide
  have e2 : String.mk (json.floatEncoder Example.minus5point3) = "-5.3" := by decide
  ⟨by rw [← e]; exact h.1, by rw [← e, ← e2]; exact h.2.1⟩

end Wether
